import Mathlib

/-!
Verification of the world-persistence and context-aggregation engine
(src/database.py, src/init_database.py, src/models.py, src/repositories.py).

The SQLite store is embedded shallowly: a `GameDB` value holds the rows of
the nine tables created by `initialize_database` (src/init_database.py),
plus the AUTOINCREMENT sequence counters for the tables whose insert
operations are modelled.  Repository methods become functions on `GameDB`.
SQL numeric REAL columns are modelled as rationals, SQLite DATETIME text
columns as `Option String` (ISO text), and JSON text columns as `String`
exactly as the Python dataclasses keep them (`settings_json`,
`skills_json`, ...), decoded on demand by the accessors modelled further
below.  Identifiers are `Nat`.

`PRAGMA foreign_keys = ON` is issued by `GameDatabase.connect`
(src/database.py line 30), so the `ON DELETE CASCADE` / `ON DELETE SET
NULL` actions declared by the schema are active; they are modelled inside
`deleteWorldCascade`.
-/

namespace AiGame

/-- Row of the Worlds table / `models.World` dataclass. -/
structure World where
  world_id : Nat
  name : String
  theme : String
  created_at : Option String
  is_active : Bool
  settings_json : String
deriving DecidableEq

/-- Row of the WorldConstants table / `models.WorldConstant` dataclass. -/
structure WorldConstant where
  constant_id : Nat
  world_id : Nat
  constant_key : String
  constant_value : String
  data_type : String
  description : String
deriving DecidableEq

/-- Row of the Characters table / `models.Character` dataclass. -/
structure Character where
  character_id : Nat
  world_id : Nat
  name : String
  type : String
  species : String
  skills_json : String
  location_x : ℚ
  location_y : ℚ
  current_health : ℚ
  max_health : ℚ
  state_json : String
deriving DecidableEq

/-- Row of the Relationships table / `models.Relationship` dataclass. -/
structure Relationship where
  relationship_id : Nat
  world_id : Nat
  character_a_id : Nat
  character_b_id : Nat
  relationship_type : String
  score : ℚ
  history_json : String
  last_updated : Option String
deriving DecidableEq

/-- Row of the Items table / `models.Item` dataclass. -/
structure Item where
  item_id : Nat
  world_id : Nat
  name : String
  description : String
  type : String
  base_properties_json : String
  is_unique : Bool
deriving DecidableEq

/-- Row of the ItemInstances table / `models.ItemInstance` dataclass. -/
structure ItemInstance where
  instance_id : Nat
  world_id : Nat
  item_id : Nat
  created_at : Option String
  custom_name : String
  current_properties_json : String
deriving DecidableEq

/-- Row of the Inventory table / `models.Inventory` dataclass. -/
structure Inventory where
  inventory_id : Nat
  character_id : Nat
  item_instance_id : Nat
  quantity : Int
  condition : ℚ
  custom_properties_json : String
deriving DecidableEq

/-- Row of the Vehicles table / `models.Vehicle` dataclass. -/
structure Vehicle where
  vehicle_id : Nat
  world_id : Nat
  owner_id : Option Nat
  type : String
  name : String
  components_json : String
  location_x : Option ℚ
  location_y : Option ℚ
  capacity : Int
  current_health : Option ℚ
  max_health : Option ℚ
deriving DecidableEq

/-- Row of the VehicleInventory table / `models.VehicleInventory` dataclass. -/
structure VehicleInventory where
  vehicle_inv_id : Nat
  vehicle_id : Nat
  item_instance_id : Nat
  quantity : Int
  slot : Option String
deriving DecidableEq

/-- The whole SQLite store created by `initialize_database`
(src/init_database.py): the rows of the nine tables, in rowid order, plus
the AUTOINCREMENT sequence counters of the tables whose inserts the
claims exercise. -/
structure GameDB where
  worlds : List World
  worldConstants : List WorldConstant
  characters : List Character
  relationships : List Relationship
  items : List Item
  itemInstances : List ItemInstance
  inventory : List Inventory
  vehicles : List Vehicle
  vehicleInventory : List VehicleInventory
  worldSeq : Nat
  characterSeq : Nat
  constantSeq : Nat
  relationshipSeq : Nat
deriving DecidableEq

/-- Python sqlite3 maps the whole SQLITE_CONSTRAINT family — FOREIGN KEY,
UNIQUE and CHECK violations alike — to the single exception class
`sqlite3.IntegrityError`; other errors (syntax, locked file, ...) arrive
as other subclasses such as `sqlite3.OperationalError`.
`GameDatabase.execute_query` (src/database.py lines 53-61) catches
`sqlite3.Error`, rolls back, logs and re-raises the same exception object
unchanged, so repository callers observe exactly these classes. -/
inductive SqliteError where
  | integrityError (msg : String)
  | operationalError (msg : String)
deriving DecidableEq

/-- The exception class of an error — the only thing a caller can branch
on without inspecting the message text. -/
inductive SqliteErrorKind where
  | integrity
  | operational
deriving DecidableEq

def SqliteError.kind : SqliteError → SqliteErrorKind
  | .integrityError _ => .integrity
  | .operationalError _ => .operational

/-- CHECK constraint on Characters.type (src/init_database.py line 33). -/
def validCharType (t : String) : Bool :=
  t == "player" || t == "npc" || t == "companion" || t == "enemy"

/-- CHECK constraint on Relationships.relationship_type
(src/init_database.py line 49). -/
def validRelType (t : String) : Bool :=
  t == "friendship" || t == "rivalry" || t == "love" || t == "hatred" || t == "allegiance"

/-- CHECK constraint on WorldConstants.data_type (src/init_database.py line 23). -/
def validDataType (t : String) : Bool :=
  t == "INTEGER" || t == "REAL" || t == "TEXT" || t == "BOOLEAN"

/-! ## WorldRepository -/

/-- Model of `WorldRepository.get_world` (src/repositories.py lines 25-32):
`fetch_one` on `SELECT * FROM Worlds WHERE world_id = ?` — the first row
with that id, or `None`. -/
def getWorld (db : GameDB) (world_id : Nat) : Option World :=
  db.worlds.find? (fun r => r.world_id == world_id)

/-- Model of `WorldRepository.create_world` (src/repositories.py lines 13-23):
INSERT into Worlds.  The UNIQUE constraint on Worlds.name
(src/init_database.py line 11) makes a duplicate name an
IntegrityError; otherwise the row is appended and the generated id
returned.  created_at takes the DATETIME DEFAULT CURRENT_TIMESTAMP,
supplied here as a parameter. -/
def createWorld (db : GameDB) (w : World) (now : String) : Except SqliteError (GameDB × Nat) :=
  if db.worlds.any (fun r => r.name == w.name) then
    .error (.integrityError "UNIQUE constraint failed: Worlds.name")
  else
    let wid := db.worldSeq
    .ok ({ db with
            worlds := db.worlds ++ [{ w with world_id := wid, created_at := some now }],
            worldSeq := wid + 1 }, wid)

/-- Model of `WorldRepository.update_world` (src/repositories.py lines 40-51):
UPDATE of name/theme/is_active/settings_json keyed by world_id, then
`return True` unconditionally — the flag does not depend on the number
of affected rows.  The UPDATE itself can only fail on the UNIQUE name
constraint, which needs an updated row and another row already holding
the new name. -/
def updateWorld (db : GameDB) (w : World) : Except SqliteError (GameDB × Bool) :=
  if db.worlds.any (fun r => r.world_id == w.world_id) &&
      db.worlds.any (fun r => r.world_id != w.world_id && r.name == w.name) then
    .error (.integrityError "UNIQUE constraint failed: Worlds.name")
  else
    .ok ({ db with
            worlds := db.worlds.map (fun r =>
              if r.world_id == w.world_id then
                { r with name := w.name, theme := w.theme,
                         is_active := w.is_active, settings_json := w.settings_json }
              else r) }, true)

/-! ### Cascading delete

`WorldRepository.delete_world` (src/repositories.py lines 53-57) runs one
statement, `DELETE FROM Worlds WHERE world_id = ?`, and returns True.
With foreign keys enforced, SQLite recursively applies the referential
actions of the schema (src/init_database.py):

* WorldConstants, Characters, Items, ItemInstances, Vehicles and
  Relationships cascade from Worlds via their world_id;
* Relationships also cascade from Characters via either endpoint;
* ItemInstances also cascade from Items;
* Inventory cascades from Characters and from ItemInstances;
* VehicleInventory cascades from Vehicles and from ItemInstances;
* Vehicles.owner_id is ON DELETE SET NULL: deleting the owning Character
  nulls the reference but keeps the Vehicle row.

On this schema the cascade graph is acyclic (Characters, Items and
Vehicles are deleted only from Worlds; ItemInstances only from Worlds
and Items), so one pass computes the fixpoint; the named predicates
below identify the rows each cascading foreign key reaches. -/

/-- A character id deleted by the cascade of deleting world `wid`. -/
def charDeadIn (db : GameDB) (wid cid : Nat) : Bool :=
  db.characters.any (fun c => c.world_id == wid && c.character_id == cid)

/-- An item id deleted by the cascade of deleting world `wid`. -/
def itemDeadIn (db : GameDB) (wid iid : Nat) : Bool :=
  db.items.any (fun i => i.world_id == wid && i.item_id == iid)

/-- An ItemInstances row deleted by the cascade: its own world_id, or its
Items template, is reached. -/
def instDeadRow (db : GameDB) (wid : Nat) (x : ItemInstance) : Bool :=
  x.world_id == wid || itemDeadIn db wid x.item_id

/-- An instance id deleted by the cascade. -/
def instDeadIn (db : GameDB) (wid iid : Nat) : Bool :=
  db.itemInstances.any (fun x => x.instance_id == iid && instDeadRow db wid x)

/-- A vehicle id deleted by the cascade. -/
def vehDeadIn (db : GameDB) (wid vid : Nat) : Bool :=
  db.vehicles.any (fun v => v.vehicle_id == vid && v.world_id == wid)

def deleteWorldCascade (db : GameDB) (world_id : Nat) : GameDB :=
  { db with
    worlds := db.worlds.filter (fun w => w.world_id != world_id)
    worldConstants := db.worldConstants.filter (fun k => k.world_id != world_id)
    characters := db.characters.filter (fun c => c.world_id != world_id)
    relationships := db.relationships.filter (fun r =>
      !(r.world_id == world_id || charDeadIn db world_id r.character_a_id ||
        charDeadIn db world_id r.character_b_id))
    items := db.items.filter (fun i => i.world_id != world_id)
    itemInstances := db.itemInstances.filter (fun x => !instDeadRow db world_id x)
    inventory := db.inventory.filter (fun v =>
      !(charDeadIn db world_id v.character_id ||
        instDeadIn db world_id v.item_instance_id))
    vehicles := (db.vehicles.filter (fun v => v.world_id != world_id)).map (fun v =>
      match v.owner_id with
      | some oid => if charDeadIn db world_id oid then { v with owner_id := none } else v
      | none => v)
    vehicleInventory := db.vehicleInventory.filter (fun v =>
      !(vehDeadIn db world_id v.vehicle_id ||
        instDeadIn db world_id v.item_instance_id)) }

/-- Model of `WorldRepository.delete_world` (src/repositories.py lines 53-57):
the cascading DELETE, then `return True` unconditionally. -/
def deleteWorld (db : GameDB) (world_id : Nat) : GameDB × Bool :=
  (deleteWorldCascade db world_id, true)

/-! ## CharacterRepository -/

/-- Model of `CharacterRepository.get_character` (src/repositories.py lines 105-112). -/
def getCharacter (db : GameDB) (character_id : Nat) : Option Character :=
  db.characters.find? (fun r => r.character_id == character_id)

/-- Model of `CharacterRepository.get_world_characters` (src/repositories.py lines
114-118): rows with the given world_id, ORDER BY name. -/
def getWorldCharacters (db : GameDB) (world_id : Nat) : List Character :=
  (db.characters.filter (fun c => c.world_id == world_id)).mergeSort
    (fun a b => a.name ≤ b.name)

/-- Model of `CharacterRepository.create_character` (src/repositories.py lines
87-103): INSERT into Characters.  Fails with IntegrityError when the
world_id foreign key has no target (foreign keys are ON) or the type
CHECK constraint is violated. -/
def createCharacter (db : GameDB) (c : Character) : Except SqliteError (GameDB × Nat) :=
  if !(db.worlds.any (fun w => w.world_id == c.world_id)) then
    .error (.integrityError "FOREIGN KEY constraint failed")
  else if !(validCharType c.type) then
    .error (.integrityError "CHECK constraint failed: Characters")
  else
    let cid := db.characterSeq
    .ok ({ db with
            characters := db.characters ++ [{ c with character_id := cid }],
            characterSeq := cid + 1 }, cid)

/-- Model of `CharacterRepository.update_character` (src/repositories.py lines
139-155): full-row UPDATE keyed by character_id (world_id is not part of
the SET list), then `return True` unconditionally.  The UPDATE can fail
only on the type CHECK constraint, and only when a row is actually
updated. -/
def updateCharacter (db : GameDB) (c : Character) : Except SqliteError (GameDB × Bool) :=
  if db.characters.any (fun r => r.character_id == c.character_id) &&
      !(validCharType c.type) then
    .error (.integrityError "CHECK constraint failed: Characters")
  else
    .ok ({ db with
            characters := db.characters.map (fun r =>
              if r.character_id == c.character_id then
                { r with name := c.name, type := c.type, species := c.species,
                         skills_json := c.skills_json,
                         location_x := c.location_x, location_y := c.location_y,
                         current_health := c.current_health, max_health := c.max_health,
                         state_json := c.state_json }
              else r) }, true)

/-- Model of `CharacterRepository.damage_character` (src/repositories.py lines
167-174): get the character; if present set
`current_health = max(0, current_health - damage)`, persist through
`update_character`, and return the mutated entity; otherwise return
`None`. -/
def damageCharacter (db : GameDB) (character_id : Nat) (damage : ℚ) :
    Except SqliteError (GameDB × Option Character) :=
  match getCharacter db character_id with
  | some ch =>
      let ch2 := { ch with current_health := max 0 (ch.current_health - damage) }
      match updateCharacter db ch2 with
      | .ok (db2, _) => .ok (db2, some ch2)
      | .error e => .error e
  | none => .ok (db, none)

/-! ## WorldConstantRepository -/

/-- Natural value of a digit run. -/
def digitsToNat (l : List Char) : Nat :=
  l.foldl (fun a c => 10 * a + (c.toNat - 48)) 0

/-- A nonempty run of decimal digits, or nothing. -/
def decDigits (l : List Char) : Option Nat :=
  if l ≠ [] ∧ l.all (fun c => c.isDigit) then some (digitsToNat l) else none

/-- Python `int(s)` on the decimal literals the store holds: an optional
sign followed by digits; anything else raises ValueError (modelled as
`none`).  Exotic accepted spellings (surrounding whitespace, digit-group
underscores) are outside the embedding. -/
def pyInt (s : String) : Option Int :=
  match s.toList with
  | '-' :: rest => (decDigits rest).map (fun n => -(n : Int))
  | '+' :: rest => (decDigits rest).map (fun n => (n : Int))
  | l => (decDigits l).map (fun n => (n : Int))

/-- Digit-run parse of the two sides of a decimal point: at least one
digit overall, both sides all digits. -/
def decFrac : List Char → Option ℚ
  | l =>
    match l.splitOn '.' with
    | [a] => (decDigits a).map (fun n => (n : ℚ))
    | [a, b] =>
        if (a ++ b) ≠ [] ∧ a.all (fun c => c.isDigit) ∧ b.all (fun c => c.isDigit) then
          some ((digitsToNat a : ℚ) + (digitsToNat b : ℚ) / ((10 : ℚ) ^ b.length))
        else none
    | _ => none

/-- Python `float(s)` on the decimal literals the store holds: optional
sign, digits with an optional decimal point; anything else raises
ValueError (modelled as `none`).  The IEEE representation is abstracted
to the exact rational value; exponent/inf/nan spellings are outside the
embedding. -/
def pyFloat (s : String) : Option ℚ :=
  match s.toList with
  | '-' :: rest => (decFrac rest).map (fun q => -q)
  | '+' :: rest => decFrac rest
  | l => decFrac l

/-- Python `str.lower()`: character-wise lowercasing (the one-to-one
case, which covers the stored literals). -/
def pyLower (s : String) : String := String.mk (s.data.map Char.toLower)

/-- The Python value produced by `WorldConstant.get_typed_value`:
int, float, bool or str. -/
inductive PyValue where
  | int (n : Int)
  | real (q : ℚ)
  | bool (b : Bool)
  | text (s : String)
deriving DecidableEq

/-- Python ValueError, raised by `int()` / `float()` on an unparseable
literal (the literal is recorded). -/
inductive PyError where
  | valueError (literal : String)
deriving DecidableEq

/-- Model of `WorldConstant.get_typed_value` (src/models.py lines 43-52):
INTEGER runs `int(value)`, REAL runs `float(value)`, BOOLEAN compares
`value.lower() == "true"`, anything else returns the raw text. -/
def getTypedValue (c : WorldConstant) : Except PyError PyValue :=
  if c.data_type == "INTEGER" then
    match pyInt c.constant_value with
    | some n => .ok (.int n)
    | none => .error (.valueError c.constant_value)
  else if c.data_type == "REAL" then
    match pyFloat c.constant_value with
    | some q => .ok (.real q)
    | none => .error (.valueError c.constant_value)
  else if c.data_type == "BOOLEAN" then
    .ok (.bool (pyLower c.constant_value == "true"))
  else
    .ok (.text c.constant_value)

/-- Model of `WorldConstantRepository.get_constant` (src/repositories.py lines
232-242): `fetch_one` on world_id and key. -/
def getConstant (db : GameDB) (world_id : Nat) (key : String) : Option WorldConstant :=
  db.worldConstants.find? (fun r => r.world_id == world_id && r.constant_key == key)

/-- Model of `WorldConstantRepository.set_constant` (src/repositories.py lines
199-230): look the key up first; if present, UPDATE value/type/description
in place (keyed by world_id and constant_key) and return the existing id;
otherwise INSERT a fresh row and return the new id.  The INSERT is
subject to the world_id foreign key and the data_type CHECK; the UPDATE
only to the CHECK. -/
def setConstant (db : GameDB) (c : WorldConstant) : Except SqliteError (GameDB × Nat) :=
  match getConstant db c.world_id c.constant_key with
  | some existing =>
      if !(validDataType c.data_type) then
        .error (.integrityError "CHECK constraint failed: WorldConstants")
      else
        .ok ({ db with
                worldConstants := db.worldConstants.map (fun r =>
                  if r.world_id == c.world_id && r.constant_key == c.constant_key then
                    { r with constant_value := c.constant_value,
                             data_type := c.data_type,
                             description := c.description }
                  else r) }, existing.constant_id)
  | none =>
      if !(db.worlds.any (fun w => w.world_id == c.world_id)) then
        .error (.integrityError "FOREIGN KEY constraint failed")
      else if !(validDataType c.data_type) then
        .error (.integrityError "CHECK constraint failed: WorldConstants")
      else
        .ok ({ db with
                worldConstants := db.worldConstants ++
                  [{ c with constant_id := db.constantSeq }],
                constantSeq := db.constantSeq + 1 }, db.constantSeq)

/-- Model of `WorldConstantRepository.get_world_constants` (src/repositories.py
lines 244-254): all rows of the world, each mapped through
`get_typed_value` into a key-to-value mapping (a Python dict in row
order, modelled as the association list; keys are unique under the
schema's UNIQUE(world_id, constant_key)).  A ValueError raised by a
coercion propagates. -/
def getWorldConstantsTyped (db : GameDB) (world_id : Nat) :
    Except PyError (List (String × PyValue)) :=
  (db.worldConstants.filter (fun r => r.world_id == world_id)).mapM
    (fun r => (getTypedValue r).map (fun v => (r.constant_key, v)))

/-! ## RelationshipRepository -/

/-- SQLite ordering on a nullable DATETIME text column: NULL sorts before
every value, text compares bytewise. -/
def sqliteTextLe : Option String → Option String → Bool
  | none, _ => true
  | some _, none => false
  | some a, some b => a ≤ b

/-- Model of `RelationshipRepository.get_character_relationships`
(src/repositories.py lines 342-350): rows where the character is either
endpoint, ORDER BY last_updated DESC. -/
def getCharacterRelationships (db : GameDB) (character_id : Nat) : List Relationship :=
  (db.relationships.filter (fun r =>
      r.character_a_id == character_id || r.character_b_id == character_id)).mergeSort
    (fun a b => sqliteTextLe b.last_updated a.last_updated)

/-- Model of `RelationshipRepository.create_relationship` (src/repositories.py
lines 274-288): INSERT into Relationships, subject to the three foreign
keys, the `character_a_id != character_b_id` CHECK, the
relationship_type CHECK and the UNIQUE(world_id, character_a_id,
character_b_id, relationship_type) constraint
(src/init_database.py lines 44-58). -/
def createRelationship (db : GameDB) (r : Relationship) : Except SqliteError (GameDB × Nat) :=
  if !(db.worlds.any (fun w => w.world_id == r.world_id)) ||
      !(db.characters.any (fun c => c.character_id == r.character_a_id)) ||
      !(db.characters.any (fun c => c.character_id == r.character_b_id)) then
    .error (.integrityError "FOREIGN KEY constraint failed")
  else if r.character_a_id == r.character_b_id then
    .error (.integrityError "CHECK constraint failed: Relationships")
  else if !(validRelType r.relationship_type) then
    .error (.integrityError "CHECK constraint failed: Relationships")
  else if db.relationships.any (fun x =>
      x.world_id == r.world_id && x.character_a_id == r.character_a_id &&
      x.character_b_id == r.character_b_id &&
      x.relationship_type == r.relationship_type) then
    .error (.integrityError
      "UNIQUE constraint failed: Relationships.world_id, Relationships.character_a_id, Relationships.character_b_id, Relationships.relationship_type")
  else
    let rid := db.relationshipSeq
    .ok ({ db with
            relationships := db.relationships ++ [{ r with relationship_id := rid }],
            relationshipSeq := rid + 1 }, rid)

/-! ## InventoryRepository -/

/-- A row of `InventoryRepository.get_character_inventory`
(src/repositories.py lines 388-415): the Inventory columns plus the
`custom_name` and `item_name` attributes attached from the joined
ItemInstances and Items rows. -/
structure InventoryView where
  inventory_id : Nat
  character_id : Nat
  item_instance_id : Nat
  quantity : Int
  condition : ℚ
  custom_properties_json : String
  item_name : String
  custom_name : String
deriving DecidableEq

/-- Model of `InventoryRepository.get_character_inventory` (src/repositories.py
lines 388-415): Inventory JOIN ItemInstances JOIN Items for one
character, ORDER BY item name.  Under the enforced foreign keys each
Inventory row joins exactly the instance and item it references
(instance_id and item_id are primary keys, so `find?` picks the row). -/
def getCharacterInventory (db : GameDB) (character_id : Nat) : List InventoryView :=
  ((db.inventory.filter (fun i => i.character_id == character_id)).filterMap (fun i =>
      match db.itemInstances.find? (fun x => x.instance_id == i.item_instance_id) with
      | some inst =>
          match db.items.find? (fun it => it.item_id == inst.item_id) with
          | some it =>
              some { inventory_id := i.inventory_id,
                     character_id := i.character_id,
                     item_instance_id := i.item_instance_id,
                     quantity := i.quantity,
                     condition := i.condition,
                     custom_properties_json := i.custom_properties_json,
                     item_name := it.name,
                     custom_name := inst.custom_name }
          | none => none
      | none => none)).mergeSort (fun a b => a.item_name ≤ b.item_name)

/-! ## GameWorldManager.get_world_context -/

/-- The five-key snapshot built by `GameWorldManager.get_world_context`
(src/repositories.py lines 476-507).  The Python code serializes the
entities into plain attribute dicts (`to_dict`, `__dict__`); the
snapshot is modelled with the entities themselves, which carry exactly
those attributes. -/
structure WorldContext where
  world : World
  constants : List (String × PyValue)
  characters : List Character
  relationships : List Relationship
  inventories : List (Nat × List InventoryView)
deriving DecidableEq

/-- Model of `GameWorldManager.get_world_context` (src/repositories.py lines
476-507): fetch the World row and return `None` when absent; otherwise
collect the world's characters, the typed constants (the only step that
can raise, via ValueError from a coercion), the per-character
relationship fan-out into one flat list, and the per-character
inventories keyed by character id with empty lists skipped. -/
def getWorldContext (db : GameDB) (world_id : Nat) : Except PyError (Option WorldContext) :=
  match getWorld db world_id with
  | none => .ok none
  | some w =>
      let chars := getWorldCharacters db world_id
      match getWorldConstantsTyped db world_id with
      | .error e => .error e
      | .ok consts =>
          let rels := chars.flatMap (fun c => getCharacterRelationships db c.character_id)
          let invs := (chars.map (fun c =>
              (c.character_id, getCharacterInventory db c.character_id))).filter
            (fun p => !p.2.isEmpty)
          .ok (some ⟨w, consts, chars, rels, invs⟩)

/-! ## Helper lemmas -/

/-- Model of `find?` by a key returns the unique element holding that key. -/
theorem find_key_eq {α : Type} (key : α → Nat) :
    ∀ (l : List α) (x : α), x ∈ l → (l.map key).Nodup →
      l.find? (fun y => key y == key x) = some x := by
  intro l
  induction l with
  | nil => intro x hx; exact absurd hx (List.not_mem_nil x)
  | cons a tl ih =>
    intro x hx hnd
    simp only [List.map_cons, List.nodup_cons] at hnd
    rcases List.mem_cons.mp hx with rfl | hmem
    · exact List.find?_cons_of_pos _ (by simp)
    · have hka : (key a == key x) = false := by
        have hm : key x ∈ tl.map key := List.mem_map_of_mem key hmem
        exact beq_eq_false_iff_ne.mpr (fun h => hnd.1 (h ▸ hm))
      rw [List.find?_cons_of_neg _ (by simp [hka])]
      exact ih x hmem hnd.2

/-- A pointwise-identity map is the identity. -/
theorem map_eq_self_of_eq {α : Type} (f : α → α) :
    ∀ (l : List α), (∀ a ∈ l, f a = a) → l.map f = l := by
  intro l
  induction l with
  | nil => intro _; rfl
  | cons a tl ih =>
    intro h
    simp only [List.map_cons]
    rw [h a (List.mem_cons_self a tl), ih (fun b hb => h b (List.mem_cons_of_mem a hb))]

/-! ## Sample stores for witnesses -/

/-- A store with no rows at all. -/
def emptyDb : GameDB :=
  { worlds := [], worldConstants := [], characters := [], relationships := [],
    items := [], itemInstances := [], inventory := [], vehicles := [],
    vehicleInventory := [], worldSeq := 1, characterSeq := 1, constantSeq := 1,
    relationshipSeq := 1 }

def sampleWorld : World :=
  { world_id := 1, name := "Elindor", theme := "fantasy",
    created_at := some "2024-01-01T00:00:00", is_active := true,
    settings_json := "\x7b\x7d" }

def sampleChar : Character :=
  { character_id := 1, world_id := 1, name := "Artan", type := "player",
    species := "human", skills_json := "\x7b\x7d", location_x := 10,
    location_y := 20, current_health := 100, max_health := 100,
    state_json := "\x7b\x7d" }

/-- One world holding one character. -/
def sampleDb : GameDB :=
  { worlds := [sampleWorld], worldConstants := [], characters := [sampleChar],
    relationships := [], items := [], itemInstances := [], inventory := [],
    vehicles := [], vehicleInventory := [], worldSeq := 2, characterSeq := 2,
    constantSeq := 1, relationshipSeq := 1 }

/-! ## C3 -/

/-- C3: for every world id with no World row, `get_world_context` returns
the explicit not-found result `None` — not an empty five-key snapshot —
and no exception escapes the remaining aggregation steps (the result is a
clean `.ok`). -/
theorem getWorldContext_missing_world_not_found (db : GameDB) (wid : Nat)
    (h : ∀ w ∈ db.worlds, w.world_id ≠ wid) :
    getWorldContext db wid = .ok none := by
  have hfind : getWorld db wid = none := by
    apply List.find?_eq_none.mpr
    intro w hw
    simp [h w hw]
  simp [getWorldContext, hfind]

/-- Witness for C3 at the empty store and world id 1. -/
theorem getWorldContext_missing_world_not_found_witness :
    getWorldContext emptyDb 1 = .ok none :=
  getWorldContext_missing_world_not_found emptyDb 1 (by simp [emptyDb])

/-! ## C6 -/

/-- C6: for every existing character id and damage amount,
`damage_character` persists `max(0, old_health - damage)`: the persisted
health is never negative, and damage exceeding the current health clamps
it to exactly 0. -/
theorem damageCharacter_clamps_at_zero (db : GameDB) (cid : Nat) (damage : ℚ)
    (ch : Character) (hmem : ch ∈ db.characters) (hid : ch.character_id = cid)
    (hnd : (db.characters.map (fun c => c.character_id)).Nodup)
    (htype : validCharType ch.type = true) :
    ∃ db2, damageCharacter db cid damage =
        .ok (db2, some { ch with current_health := max 0 (ch.current_health - damage) }) ∧
      ∀ r ∈ db2.characters, r.character_id = cid →
        r.current_health = max 0 (ch.current_health - damage) ∧
        0 ≤ r.current_health ∧
        (ch.current_health < damage → r.current_health = 0) := by
  subst hid
  have hfind : getCharacter db ch.character_id = some ch :=
    find_key_eq (fun c : Character => c.character_id) db.characters ch hmem hnd
  have hmax0 : (0 : ℚ) ≤ max 0 (ch.current_health - damage) := le_max_left _ _
  have hclamp : ch.current_health < damage → max 0 (ch.current_health - damage) = 0 := by
    intro hlt
    exact max_eq_left (by linarith)
  unfold damageCharacter
  rw [hfind]
  unfold updateCharacter
  simp only [htype, Bool.not_true, Bool.and_false, Bool.false_eq_true, if_false]
  refine ⟨_, rfl, ?_⟩
  intro r hr hrid
  simp only [List.mem_map] at hr
  obtain ⟨r0, hr0, hfr⟩ := hr
  subst hfr
  by_cases hcase : (r0.character_id == ch.character_id) = true
  · simp only [hcase, if_true]
    exact ⟨by trivial, hmax0, fun hlt => hclamp hlt⟩
  · rw [if_neg hcase] at hrid ⊢
    exact absurd (by simp [hrid]) hcase

/-- Witness for C6: 150 damage on a character with 100 health leaves
exactly 0 health. -/
theorem damageCharacter_clamps_at_zero_witness :
    ∃ db2, damageCharacter sampleDb 1 150 =
        .ok (db2, some { sampleChar with
          current_health := max 0 (sampleChar.current_health - 150) }) ∧
      ∀ r ∈ db2.characters, r.character_id = 1 →
        r.current_health = max 0 (sampleChar.current_health - 150) ∧
        0 ≤ r.current_health ∧
        (sampleChar.current_health < 150 → r.current_health = 0) :=
  damageCharacter_clamps_at_zero sampleDb 1 150 sampleChar (by simp [sampleDb])
    (by simp [sampleChar]) (by simp [sampleDb]) (by decide)

/-! ## C10 -/

/-- C10: `update_world`, `delete_world` and `update_character` return
True for every input on which they complete, including identifiers for
which no row exists — for a missing id they return True and leave the
store unchanged, so a caller cannot detect a missing entity from the
returned flag. -/
theorem repository_flags_always_true (db : GameDB) (w : World) (c : Character) (wid : Nat)
    (hw : ∀ r ∈ db.worlds, r.world_id ≠ w.world_id)
    (hc : ∀ r ∈ db.characters, r.character_id ≠ c.character_id) :
    (deleteWorld db wid).2 = true ∧
    updateWorld db w = .ok (db, true) ∧
    updateCharacter db c = .ok (db, true) ∧
    (∀ (db2 : GameDB) (w2 : World) (res : GameDB × Bool),
        updateWorld db2 w2 = .ok res → res.2 = true) ∧
    (∀ (db2 : GameDB) (c2 : Character) (res : GameDB × Bool),
        updateCharacter db2 c2 = .ok res → res.2 = true) ∧
    (∀ (db2 : GameDB) (wid2 : Nat), (deleteWorld db2 wid2).2 = true) := by
  have hwany : db.worlds.any (fun r => r.world_id == w.world_id) = false := by
    rw [List.any_eq_false]
    intro r hr
    simp [hw r hr]
  have hcany : db.characters.any (fun r => r.character_id == c.character_id) = false := by
    rw [List.any_eq_false]
    intro r hr
    simp [hc r hr]
  refine ⟨rfl, ?_, ?_, ?_, ?_, ?_⟩
  · unfold updateWorld
    rw [hwany]
    simp only [Bool.false_and, if_false, Bool.false_eq_true]
    have : db.worlds.map (fun r =>
        if r.world_id == w.world_id then
          { r with name := w.name, theme := w.theme,
                   is_active := w.is_active, settings_json := w.settings_json }
        else r) = db.worlds := by
      apply map_eq_self_of_eq
      intro r hr
      simp [hw r hr]
    rw [this]
  · unfold updateCharacter
    rw [hcany]
    simp only [Bool.false_and, if_false, Bool.false_eq_true]
    have : db.characters.map (fun r =>
        if r.character_id == c.character_id then
          { r with name := c.name, type := c.type, species := c.species,
                   skills_json := c.skills_json,
                   location_x := c.location_x, location_y := c.location_y,
                   current_health := c.current_health, max_health := c.max_health,
                   state_json := c.state_json }
        else r) = db.characters := by
      apply map_eq_self_of_eq
      intro r hr
      simp [hc r hr]
    rw [this]
  · intro db2 w2 res h
    unfold updateWorld at h
    by_cases hcond : (db2.worlds.any (fun r => r.world_id == w2.world_id) &&
        db2.worlds.any (fun r => r.world_id != w2.world_id && r.name == w2.name)) = true
    · rw [if_pos hcond] at h
      exact absurd h (by simp)
    · rw [if_neg hcond] at h
      cases h
      rfl
  · intro db2 c2 res h
    unfold updateCharacter at h
    by_cases hcond : (db2.characters.any (fun r => r.character_id == c2.character_id) &&
        !(validCharType c2.type)) = true
    · rw [if_pos hcond] at h
      exact absurd h (by simp)
    · rw [if_neg hcond] at h
      cases h
      rfl
  · intro db2 wid2
    rfl

/-- Witness for C10 at a store that has no row with the targeted ids. -/
theorem repository_flags_always_true_witness :
    (deleteWorld sampleDb 99).2 = true ∧
    updateWorld sampleDb { sampleWorld with world_id := 99 } = .ok (sampleDb, true) ∧
    updateCharacter sampleDb { sampleChar with character_id := 99 } =
      .ok (sampleDb, true) ∧
    (∀ (db2 : GameDB) (w2 : World) (res : GameDB × Bool),
        updateWorld db2 w2 = .ok res → res.2 = true) ∧
    (∀ (db2 : GameDB) (c2 : Character) (res : GameDB × Bool),
        updateCharacter db2 c2 = .ok res → res.2 = true) ∧
    (∀ (db2 : GameDB) (wid2 : Nat), (deleteWorld db2 wid2).2 = true) :=
  repository_flags_always_true sampleDb { sampleWorld with world_id := 99 }
    { sampleChar with character_id := 99 } 99
    (by decide) (by decide)

/-! ## C5 -/

/-- A filter of length at most one containing a member is exactly that
member. -/
theorem filter_eq_single_of_mem {α : Type} (l : List α) (p : α → Bool) (x : α)
    (hx : x ∈ l) (hpx : p x = true) (hlen : (l.filter p).length ≤ 1) :
    l.filter p = [x] := by
  have hmem : x ∈ l.filter p := List.mem_filter.mpr ⟨hx, hpx⟩
  match hfp : l.filter p with
  | [] => rw [hfp] at hmem; exact absurd hmem (List.not_mem_nil x)
  | [a] => rw [hfp] at hmem; simp only [List.mem_singleton] at hmem; rw [hmem]
  | a :: b :: t => rw [hfp] at hlen; simp at hlen

/-- One successful `set_constant` call leaves exactly one row for the
key, holding the argument's value, type and description, and does not
touch the Worlds table. -/
theorem setConstant_single (db : GameDB) (c : WorldConstant)
    (hworld : db.worlds.any (fun w => w.world_id == c.world_id) = true)
    (hdt : validDataType c.data_type = true)
    (huniq : (db.worldConstants.filter (fun r =>
        r.world_id == c.world_id && r.constant_key == c.constant_key)).length ≤ 1) :
    ∃ db1 i, setConstant db c = .ok (db1, i) ∧
      db1.worldConstants.filter (fun r =>
          r.world_id == c.world_id && r.constant_key == c.constant_key) =
        [{ constant_id := i, world_id := c.world_id, constant_key := c.constant_key,
           constant_value := c.constant_value, data_type := c.data_type,
           description := c.description }] ∧
      db1.worlds = db.worlds := by
  unfold setConstant getConstant
  cases hfind : db.worldConstants.find? (fun r =>
      r.world_id == c.world_id && r.constant_key == c.constant_key) with
  | none =>
    simp only [hworld, hdt, Bool.not_true, Bool.false_eq_true, if_false]
    refine ⟨_, _, rfl, ?_, rfl⟩
    rw [List.filter_append]
    have hnil : db.worldConstants.filter (fun r =>
        r.world_id == c.world_id && r.constant_key == c.constant_key) = [] := by
      rw [List.filter_eq_nil_iff]
      intro x hx
      have := List.find?_eq_none.mp hfind x hx
      simpa using this
    rw [hnil]
    simp
  | some existing =>
    have hmem : existing ∈ db.worldConstants := List.mem_of_find?_eq_some hfind
    have hp := List.find?_some hfind
    have hwk : existing.world_id = c.world_id ∧ existing.constant_key = c.constant_key := by
      simpa using hp
    simp only [hdt, Bool.not_true, Bool.false_eq_true, if_false]
    refine ⟨_, existing.constant_id, rfl, ?_, rfl⟩
    rw [List.filter_map]
    have hcongr : db.worldConstants.filter ((fun r =>
        r.world_id == c.world_id && r.constant_key == c.constant_key) ∘ (fun r =>
          if r.world_id == c.world_id && r.constant_key == c.constant_key then
            { r with constant_value := c.constant_value, data_type := c.data_type,
                     description := c.description }
          else r)) = db.worldConstants.filter (fun r =>
            r.world_id == c.world_id && r.constant_key == c.constant_key) := by
      apply List.filter_congr
      intro a _
      by_cases h : (a.world_id == c.world_id && a.constant_key == c.constant_key) = true
      · simp [Function.comp, h]
      · simp [Function.comp, h]
    rw [hcongr, filter_eq_single_of_mem _ _ existing hmem hp huniq]
    simp only [List.map_cons, List.map_nil, hp, if_true]
    rw [List.cons.injEq]
    refine ⟨?_, rfl⟩
    rw [WorldConstant.mk.injEq]
    exact ⟨rfl, hwk.1, hwk.2, rfl, rfl, rfl⟩

/-- C5: calling `set_constant` twice with the same (world_id,
constant_key) leaves exactly one WorldConstants row for that key, holding
the second call's value, data type and description — the caller never
needs to know whether the key already exists (the store may start with or
without the key; the unique-key invariant is the schema's
UNIQUE(world_id, constant_key)). -/
theorem setConstant_twice_one_row (db : GameDB) (c1 c2 : WorldConstant)
    (hw2 : c2.world_id = c1.world_id) (hk2 : c2.constant_key = c1.constant_key)
    (hworld : db.worlds.any (fun w => w.world_id == c1.world_id) = true)
    (hdt1 : validDataType c1.data_type = true) (hdt2 : validDataType c2.data_type = true)
    (huniq : (db.worldConstants.filter (fun r =>
        r.world_id == c1.world_id && r.constant_key == c1.constant_key)).length ≤ 1) :
    ∃ db1 i1 db2 i2,
      setConstant db c1 = .ok (db1, i1) ∧
      setConstant db1 c2 = .ok (db2, i2) ∧
      ∃ i, db2.worldConstants.filter (fun r =>
          r.world_id == c1.world_id && r.constant_key == c1.constant_key) =
        [{ constant_id := i, world_id := c1.world_id, constant_key := c1.constant_key,
           constant_value := c2.constant_value, data_type := c2.data_type,
           description := c2.description }] := by
  obtain ⟨db1, i1, hrun1, hfilter1, hworlds1⟩ := setConstant_single db c1 hworld hdt1 huniq
  have hworld2 : db1.worlds.any (fun w => w.world_id == c2.world_id) = true := by
    rw [hworlds1, hw2]; exact hworld
  have huniq2 : (db1.worldConstants.filter (fun r =>
      r.world_id == c2.world_id && r.constant_key == c2.constant_key)).length ≤ 1 := by
    rw [hw2, hk2, hfilter1]; simp
  obtain ⟨db2, i2, hrun2, hfilter2, _⟩ := setConstant_single db1 c2 hworld2 hdt2 huniq2
  refine ⟨db1, i1, db2, i2, hrun1, hrun2, i2, ?_⟩
  rw [hw2, hk2] at hfilter2
  exact hfilter2

/-- Witness for C5: setting GRAVITY twice in the sample store leaves one
row holding the second value. -/
theorem setConstant_twice_one_row_witness :
    ∃ db1 i1 db2 i2,
      setConstant sampleDb
        { constant_id := 0, world_id := 1, constant_key := "GRAVITY",
          constant_value := "9", data_type := "REAL", description := "g" } = .ok (db1, i1) ∧
      setConstant db1
        { constant_id := 0, world_id := 1, constant_key := "GRAVITY",
          constant_value := "10", data_type := "REAL", description := "g2" } = .ok (db2, i2) ∧
      ∃ i, db2.worldConstants.filter (fun r =>
          r.world_id == 1 && r.constant_key == "GRAVITY") =
        [{ constant_id := i, world_id := 1, constant_key := "GRAVITY",
           constant_value := "10", data_type := "REAL", description := "g2" }] :=
  setConstant_twice_one_row sampleDb
    { constant_id := 0, world_id := 1, constant_key := "GRAVITY",
      constant_value := "9", data_type := "REAL", description := "g" }
    { constant_id := 0, world_id := 1, constant_key := "GRAVITY",
      constant_value := "10", data_type := "REAL", description := "g2" }
    rfl rfl (by decide) (by decide) (by decide) (by decide)

/-! ## C7 -/

/-- C7 counterexample: at a concrete store, a duplicate-name World insert
and a Character insert against a nonexistent world produce errors of the
same kind — both are sqlite3.IntegrityError — so a caller cannot branch
on the error kind to tell a duplicate-key violation from a referential
violation, contrary to the claim of a distinct duplicate-constraint
error. -/
theorem create_errors_share_kind :
    createWorld sampleDb { sampleWorld with world_id := 0 } "2024-01-02T00:00:00" =
      .error (.integrityError "UNIQUE constraint failed: Worlds.name") ∧
    createCharacter sampleDb { sampleChar with character_id := 0, world_id := 99 } =
      .error (.integrityError "FOREIGN KEY constraint failed") ∧
    (SqliteError.integrityError "UNIQUE constraint failed: Worlds.name").kind =
      (SqliteError.integrityError "FOREIGN KEY constraint failed").kind :=
  ⟨rfl, rfl, rfl⟩

/-- C7 (amended): a referential violation (Character against a
nonexistent world) and a duplicate-key violation (duplicate World name,
duplicate Relationship (world, a, b, type) tuple) each surface as the
storage integrity error with the original cause message attached — but
they share the single sqlite3.IntegrityError class, so callers can only
tell them apart by message text, not by error kind. -/
theorem create_constraint_errors (db : GameDB) (w : World) (now : String)
    (c : Character) (r : Relationship)
    (hdupw : ∃ x ∈ db.worlds, x.name = w.name)
    (hfkc : ∀ x ∈ db.worlds, x.world_id ≠ c.world_id)
    (hfkr1 : db.worlds.any (fun x => x.world_id == r.world_id) = true)
    (hfkr2 : db.characters.any (fun x => x.character_id == r.character_a_id) = true)
    (hfkr3 : db.characters.any (fun x => x.character_id == r.character_b_id) = true)
    (hne : r.character_a_id ≠ r.character_b_id)
    (htype : validRelType r.relationship_type = true)
    (hdupr : db.relationships.any (fun x =>
        x.world_id == r.world_id && x.character_a_id == r.character_a_id &&
        x.character_b_id == r.character_b_id &&
        x.relationship_type == r.relationship_type) = true) :
    (∃ m1, createWorld db w now = .error (.integrityError m1)) ∧
    (∃ m2, createCharacter db c = .error (.integrityError m2)) ∧
    (∃ m3, createRelationship db r = .error (.integrityError m3)) ∧
    ∀ m m2, (SqliteError.integrityError m).kind = (SqliteError.integrityError m2).kind := by
  have hdup : db.worlds.any (fun x => x.name == w.name) = true := by
    rw [List.any_eq_true]
    obtain ⟨x, hx, hname⟩ := hdupw
    exact ⟨x, hx, by simp [hname]⟩
  have hnofk : db.worlds.any (fun x => x.world_id == c.world_id) = false := by
    rw [List.any_eq_false]
    intro x hx
    simp [hfkc x hx]
  refine ⟨⟨"UNIQUE constraint failed: Worlds.name", ?_⟩,
    ⟨"FOREIGN KEY constraint failed", ?_⟩,
    ⟨"UNIQUE constraint failed: Relationships.world_id, Relationships.character_a_id, Relationships.character_b_id, Relationships.relationship_type", ?_⟩,
    fun _ _ => rfl⟩
  · unfold createWorld
    rw [hdup]
    rfl
  · unfold createCharacter
    rw [hnofk]
    rfl
  · unfold createRelationship
    rw [hfkr1, hfkr2, hfkr3]
    have hbne : (r.character_a_id == r.character_b_id) = false := by simp [hne]
    simp only [Bool.not_true, Bool.or_self, Bool.or_false, Bool.false_eq_true, if_false,
      hbne, htype, hdupr, if_true]

/-- A second sample store: one world, two characters, one friendship
relationship between them. -/
def sampleChar2 : Character :=
  { character_id := 2, world_id := 1, name := "Liana", type := "npc",
    species := "elf", skills_json := "\x7b\x7d", location_x := 12,
    location_y := 21, current_health := 85, max_health := 85,
    state_json := "\x7b\x7d" }

def sampleRel : Relationship :=
  { relationship_id := 1, world_id := 1, character_a_id := 1, character_b_id := 2,
    relationship_type := "friendship", score := 30, history_json := "[]",
    last_updated := some "2024-01-01T00:00:00" }

def sampleDb2 : GameDB :=
  { worlds := [sampleWorld], worldConstants := [],
    characters := [sampleChar, sampleChar2], relationships := [sampleRel],
    items := [], itemInstances := [], inventory := [], vehicles := [],
    vehicleInventory := [], worldSeq := 2, characterSeq := 3, constantSeq := 1,
    relationshipSeq := 2 }

/-- Witness for the amended C7 at the two-character store. -/
theorem create_constraint_errors_witness :
    (∃ m1, createWorld sampleDb2 { sampleWorld with world_id := 0 } "t" =
      .error (.integrityError m1)) ∧
    (∃ m2, createCharacter sampleDb2 { sampleChar with character_id := 0, world_id := 99 } =
      .error (.integrityError m2)) ∧
    (∃ m3, createRelationship sampleDb2 { sampleRel with relationship_id := 0 } =
      .error (.integrityError m3)) ∧
    ∀ m m2, (SqliteError.integrityError m).kind = (SqliteError.integrityError m2).kind :=
  create_constraint_errors sampleDb2 { sampleWorld with world_id := 0 } "t"
    { sampleChar with character_id := 0, world_id := 99 }
    { sampleRel with relationship_id := 0 }
    ⟨sampleWorld, by decide, rfl⟩ (by decide) (by decide) (by decide) (by decide)
    (by decide) (by decide) (by decide)

/-! ## C8 -/

/-- C8 counterexample: a BOOLEAN constant whose stored text "banana" is
no boolean literal is silently coerced to False — `get_typed_value`
returns a value, not an error, contradicting the claim that a stored
value that cannot be coerced to its declared type raises. -/
theorem getTypedValue_boolean_silent_false :
    getTypedValue
      { constant_id := 1, world_id := 1, constant_key := "FLAG",
        constant_value := "banana", data_type := "BOOLEAN", description := "" } =
      .ok (.bool false) := rfl

/-- C8 (amended): INTEGER text is coerced via `int()` and REAL text via
`float()`, with an unparseable literal raising ValueError to the caller;
TEXT (and any other declared type) returns the raw text; BOOLEAN never
raises — it yields true exactly when the stored text lowercases to
"true" and silently yields false for every other value. -/
theorem getTypedValue_coercion (c : WorldConstant) :
    (c.data_type = "INTEGER" →
      (∀ n, pyInt c.constant_value = some n → getTypedValue c = .ok (.int n)) ∧
      (pyInt c.constant_value = none →
        getTypedValue c = .error (.valueError c.constant_value))) ∧
    (c.data_type = "REAL" →
      (∀ q, pyFloat c.constant_value = some q → getTypedValue c = .ok (.real q)) ∧
      (pyFloat c.constant_value = none →
        getTypedValue c = .error (.valueError c.constant_value))) ∧
    (c.data_type = "BOOLEAN" →
      getTypedValue c = .ok (.bool (pyLower c.constant_value == "true"))) ∧
    (c.data_type ≠ "INTEGER" → c.data_type ≠ "REAL" → c.data_type ≠ "BOOLEAN" →
      getTypedValue c = .ok (.text c.constant_value)) := by
  refine ⟨fun h => ⟨fun n hn => ?_, fun hn => ?_⟩,
          fun h => ⟨fun q hq => ?_, fun hq => ?_⟩, fun h => ?_, fun h1 h2 h3 => ?_⟩
  · simp [getTypedValue, h, hn]
  · simp [getTypedValue, h, hn]
  · simp [getTypedValue, h, hq]
  · simp [getTypedValue, h, hq]
  · simp [getTypedValue, h]
  · simp [getTypedValue, beq_iff_eq, h1, h2, h3]

/-- Witness for the amended C8: an INTEGER constant "100" coerces to the
integer 100. -/
theorem getTypedValue_coercion_witness :
    getTypedValue
      { constant_id := 1, world_id := 1, constant_key := "MAGIC_POWER",
        constant_value := "100", data_type := "INTEGER", description := "" } =
      .ok (.int 100) :=
  ((getTypedValue_coercion _).1 rfl).1 100 (by decide)

/-! ## C2 -/

/-- Counting over a per-element fan-out is the sum of per-element
counts. -/
theorem countP_flatMap {α β : Type} (f : α → List β) (p : β → Bool) :
    ∀ l : List α, (l.flatMap f).countP p = (l.map (fun a => (f a).countP p)).sum := by
  intro l
  induction l with
  | nil => rfl
  | cons a tl ih =>
    simp only [List.flatMap_cons, List.countP_append, List.map_cons, List.sum_cons, ih]

/-- Counting a keyed element while a side condition holds: under
key-uniqueness the count is 1 when the unique key owner satisfies the
side condition and 0 otherwise. -/
theorem countP_key_and {α : Type} (key : α → Nat) (s : α → Bool) :
    ∀ (l : List α) (x : α), x ∈ l → (l.map key).Nodup →
      l.countP (fun y => (key y == key x) && s y) = if s x then 1 else 0 := by
  intro l
  induction l with
  | nil => intro x hx; exact absurd hx (List.not_mem_nil x)
  | cons a tl ih =>
    intro x hx hnd
    simp only [List.map_cons, List.nodup_cons] at hnd
    rw [List.countP_cons]
    rcases List.mem_cons.mp hx with rfl | hmem
    · have htl : tl.countP (fun y => (key y == key x) && s y) = 0 := by
        rw [List.countP_eq_zero]
        intro y hy
        have hne : key y ≠ key x := fun h => hnd.1 (h ▸ List.mem_map_of_mem key hy)
        simp [hne]
      rw [htl]
      by_cases hs : s x = true
      · simp [hs]
      · simp [Bool.eq_false_iff.mpr hs]
    · have hne : key a ≠ key x := by
        intro h
        exact hnd.1 (h ▸ List.mem_map_of_mem key hmem)
      rw [ih x hmem hnd.2]
      simp [hne]

/-- A disjoint boolean alternative splits a count. -/
theorem countP_or_disjoint {α : Type} (A B : α → Bool) :
    ∀ l : List α, (∀ y ∈ l, ¬(A y = true ∧ B y = true)) →
      l.countP (fun y => A y || B y) = l.countP A + l.countP B := by
  intro l
  induction l with
  | nil => intro _; rfl
  | cons a tl ih =>
    intro h
    simp only [List.countP_cons]
    rw [ih (fun y hy => h y (List.mem_cons_of_mem a hy))]
    by_cases hA : A a = true
    · have hB : ¬B a = true := fun hB => h a (List.mem_cons_self a tl) ⟨hA, hB⟩
      simp [hA, Bool.eq_false_iff.mpr hB]
      omega
    · by_cases hB : B a = true
      · simp [Bool.eq_false_iff.mpr hA, hB]
        omega
      · simp [Bool.eq_false_iff.mpr hA, Bool.eq_false_iff.mpr hB]

/-- Summing an indicator over a list counts the satisfying elements. -/
theorem sum_map_ite_eq_countP {α : Type} (p : α → Bool) :
    ∀ l : List α, (l.map (fun a => if p a then 1 else 0)).sum = l.countP p := by
  intro l
  induction l with
  | nil => rfl
  | cons a tl ih =>
    simp only [List.map_cons, List.sum_cons, List.countP_cons, ih]
    by_cases hp : p a = true
    · simp [hp]
      omega
    · simp [Bool.eq_false_iff.mpr hp]

/-- C2: in the snapshot of an existing world, a relationship whose two
endpoint characters both lie in that world's character set appears
exactly twice in the flat relationships list — once collected from each
endpoint's perspective, with no deduplication by relationship id.
(Uniqueness of primary keys and the schema CHECK
`character_a_id != character_b_id` are the stated hypotheses.) -/
theorem getWorldContext_relationship_counted_twice (db : GameDB) (wid : Nat)
    (ctx : WorldContext) (r : Relationship) (a b : Character)
    (hctx : getWorldContext db wid = .ok (some ctx))
    (hr : r ∈ db.relationships)
    (ha : a ∈ db.characters) (hb : b ∈ db.characters)
    (haid : a.character_id = r.character_a_id) (hbid : b.character_id = r.character_b_id)
    (haw : a.world_id = wid) (hbw : b.world_id = wid)
    (hab : r.character_a_id ≠ r.character_b_id)
    (hrnd : (db.relationships.map (fun x => x.relationship_id)).Nodup)
    (hcnd : (db.characters.map (fun c => c.character_id)).Nodup) :
    ctx.relationships.countP (fun x => x.relationship_id == r.relationship_id) = 2 := by
  -- Extract the flat relationships list from the snapshot.
  unfold getWorldContext at hctx
  split at hctx
  · exact absurd hctx (by simp)
  · split at hctx
    · exact absurd hctx (by simp)
    · simp only [Except.ok.injEq, Option.some.injEq] at hctx
      rw [← hctx]
      -- Per-character counts.
      rw [countP_flatMap]
      have hpoint : ∀ c : Character,
          (getCharacterRelationships db c.character_id).countP
            (fun x => x.relationship_id == r.relationship_id) =
          if r.character_a_id == c.character_id || r.character_b_id == c.character_id
          then 1 else 0 := by
        intro c
        unfold getCharacterRelationships
        rw [((db.relationships.filter (fun x =>
            x.character_a_id == c.character_id ||
            x.character_b_id == c.character_id)).mergeSort_perm
          (fun x y => sqliteTextLe y.last_updated x.last_updated)).countP_eq]
        rw [List.countP_filter]
        exact countP_key_and (fun x => x.relationship_id)
          (fun x => x.character_a_id == c.character_id ||
            x.character_b_id == c.character_id) db.relationships r hr hrnd
      rw [List.map_congr_left (fun c _ => hpoint c), sum_map_ite_eq_countP]
      -- Count the matching characters of the world.
      unfold getWorldCharacters
      rw [((db.characters.filter (fun c => c.world_id == wid)).mergeSort_perm
        (fun x y => x.name ≤ y.name)).countP_eq]
      rw [List.countP_filter]
      have hsplit : db.characters.countP (fun c =>
          (r.character_a_id == c.character_id || r.character_b_id == c.character_id) &&
            c.world_id == wid) =
          db.characters.countP (fun c =>
            (c.character_id == a.character_id) && (c.world_id == wid)) +
          db.characters.countP (fun c =>
            (c.character_id == b.character_id) && (c.world_id == wid)) := by
        rw [← countP_or_disjoint]
        · apply List.countP_congr
          intro c _
          constructor
          · intro h
            simp only [Bool.and_eq_true, Bool.or_eq_true, beq_iff_eq] at h ⊢
            omega
          · intro h
            simp only [Bool.and_eq_true, Bool.or_eq_true, beq_iff_eq] at h ⊢
            omega
        · intro c _ hc
          simp only [Bool.and_eq_true, beq_iff_eq] at hc
          exact hab (by omega)
      rw [hsplit]
      rw [countP_key_and (fun c => c.character_id) (fun c => c.world_id == wid)
        db.characters a ha hcnd]
      rw [countP_key_and (fun c => c.character_id) (fun c => c.world_id == wid)
        db.characters b hb hcnd]
      simp [haw, hbw]

/-- Witness for C2 at the two-character store: the one friendship
relationship is listed twice in the snapshot. -/
theorem getWorldContext_relationship_counted_twice_witness :
    ∃ ctx, getWorldContext sampleDb2 1 = .ok (some ctx) ∧
      ctx.relationships.countP (fun x => x.relationship_id == 1) = 2 := by
  refine ⟨_, rfl, ?_⟩
  exact getWorldContext_relationship_counted_twice sampleDb2 1 _ sampleRel
    sampleChar sampleChar2 rfl (by decide) (by decide) (by decide)
    (by decide) (by decide) (by decide) (by decide) (by decide)
    (by decide) (by decide)

/-! ## C1 -/

/-- A second world. -/
def sampleWorldB : World :=
  { world_id := 2, name := "Beta", theme := "steam",
    created_at := some "2024-01-01T00:00:00", is_active := true,
    settings_json := "\x7b\x7d" }

/-- A vehicle that lives in world 2 but is owned by character 1 of
world 1 — the schema ties owner_id to Characters with ON DELETE SET
NULL, without requiring the owner to be in the vehicle's world. -/
def crossVehicle : Vehicle :=
  { vehicle_id := 20, world_id := 2, owner_id := some 1, type := "mechanical",
    name := "Cart", components_json := "\x7b\x7d", location_x := none,
    location_y := none, capacity := 1, current_health := none, max_health := none }

def crossDb : GameDB :=
  { worlds := [sampleWorld, sampleWorldB], worldConstants := [],
    characters := [sampleChar], relationships := [], items := [],
    itemInstances := [], inventory := [], vehicles := [crossVehicle],
    vehicleInventory := [], worldSeq := 3, characterSeq := 2, constantSeq := 1,
    relationshipSeq := 1 }

/-- C1 counterexample: deleting world 1 is not invisible to the rows of
world 2 — the world-2 vehicle owned by a world-1 character survives only
in modified form (owner_id nulled by ON DELETE SET NULL); the original
row is gone, so rows belonging to other worlds are not all untouched. -/
theorem deleteWorld_modifies_other_world_vehicle :
    crossVehicle ∈ crossDb.vehicles ∧ crossVehicle.world_id = 2 ∧
    (deleteWorld crossDb 1).1.vehicles = [{ crossVehicle with owner_id := none }] ∧
    crossVehicle ∉ (deleteWorld crossDb 1).1.vehicles := by decide

/-- C1 (amended): after `delete_world(world_id)`, every row scoped to the
world directly or transitively along the cascading foreign keys is
removed — all world-scoped lookups return an empty sequence, and lookups
through any deleted parent (character, vehicle, item instance) return
empty sequences too; rows not reached by the cascade survive, except
that a surviving Vehicle whose owner character was deleted is kept in
modified form with owner_id set to NULL (ON DELETE SET NULL) rather than
untouched. -/
theorem deleteWorld_cascade_spec (db : GameDB) (wid : Nat) (db2 : GameDB)
    (hdb2 : db2 = (deleteWorld db wid).1) :
    (getWorld db2 wid = none) ∧
    (getWorldCharacters db2 wid = []) ∧
    (db2.worldConstants.filter (fun k => k.world_id == wid) = []) ∧
    (db2.relationships.filter (fun x => x.world_id == wid) = []) ∧
    (db2.items.filter (fun i => i.world_id == wid) = []) ∧
    (db2.itemInstances.filter (fun x => x.world_id == wid) = []) ∧
    (db2.vehicles.filter (fun v => v.world_id == wid) = []) ∧
    (∀ c ∈ db.characters, c.world_id = wid →
      getCharacterRelationships db2 c.character_id = [] ∧
      getCharacterInventory db2 c.character_id = []) ∧
    (∀ v ∈ db.vehicles, v.world_id = wid →
      db2.vehicleInventory.filter (fun x => x.vehicle_id == v.vehicle_id) = []) ∧
    (∀ x ∈ db.itemInstances, instDeadRow db wid x = true →
      db2.inventory.filter (fun i => i.item_instance_id == x.instance_id) = [] ∧
      db2.vehicleInventory.filter (fun i => i.item_instance_id == x.instance_id) = []) ∧
    (∀ w ∈ db.worlds, w.world_id ≠ wid → w ∈ db2.worlds) ∧
    (∀ c ∈ db.characters, c.world_id ≠ wid → c ∈ db2.characters) ∧
    (∀ k ∈ db.worldConstants, k.world_id ≠ wid → k ∈ db2.worldConstants) ∧
    (∀ i ∈ db.items, i.world_id ≠ wid → i ∈ db2.items) ∧
    (∀ x ∈ db.relationships, x.world_id ≠ wid →
      charDeadIn db wid x.character_a_id = false →
      charDeadIn db wid x.character_b_id = false → x ∈ db2.relationships) ∧
    (∀ x ∈ db.itemInstances, instDeadRow db wid x = false → x ∈ db2.itemInstances) ∧
    (∀ i ∈ db.inventory, charDeadIn db wid i.character_id = false →
      instDeadIn db wid i.item_instance_id = false → i ∈ db2.inventory) ∧
    (∀ v ∈ db.vehicles, v.world_id ≠ wid →
      (match v.owner_id with
        | some oid => if charDeadIn db wid oid then { v with owner_id := none } else v
        | none => v) ∈ db2.vehicles) ∧
    (∀ x ∈ db.vehicleInventory, vehDeadIn db wid x.vehicle_id = false →
      instDeadIn db wid x.item_instance_id = false → x ∈ db2.vehicleInventory) := by
  subst hdb2
  simp only [deleteWorld, deleteWorldCascade]
  refine ⟨?_, ?_, ?_, ?_, ?_, ?_, ?_, ?_, ?_, ?_, ?_, ?_, ?_, ?_, ?_, ?_, ?_, ?_, ?_⟩
  · apply List.find?_eq_none.mpr
    intro w hw
    have h2 := (List.mem_filter.mp hw).2
    simp only [bne_iff_ne, ne_eq] at h2
    simp [h2]
  · unfold getWorldCharacters
    rw [show (List.filter (fun c => c.world_id != wid) db.characters).filter
        (fun c => c.world_id == wid) = [] from ?_, List.mergeSort_nil]
    rw [List.filter_eq_nil_iff]
    intro c hc
    have h2 := (List.mem_filter.mp hc).2
    simp only [bne_iff_ne, ne_eq] at h2
    simp [h2]
  · rw [List.filter_eq_nil_iff]
    intro k hk
    have h2 := (List.mem_filter.mp hk).2
    simp only [bne_iff_ne, ne_eq] at h2
    simp [h2]
  · rw [List.filter_eq_nil_iff]
    intro x hx
    have h2 := (List.mem_filter.mp hx).2
    simp only [Bool.not_eq_true', Bool.or_eq_false_iff] at h2
    simp [h2.1.1]
  · rw [List.filter_eq_nil_iff]
    intro i hi
    have h2 := (List.mem_filter.mp hi).2
    simp only [bne_iff_ne, ne_eq] at h2
    simp [h2]
  · rw [List.filter_eq_nil_iff]
    intro x hx
    have h2 := (List.mem_filter.mp hx).2
    simp only [Bool.not_eq_true', instDeadRow, Bool.or_eq_false_iff] at h2
    simp [h2.1]
  · rw [List.filter_eq_nil_iff]
    intro v hv
    simp only [List.mem_map] at hv
    obtain ⟨v0, hv0, rfl⟩ := hv
    have h2 := (List.mem_filter.mp hv0).2
    simp only [bne_iff_ne, ne_eq] at h2
    cases hov : v0.owner_id with
    | none => simp [hov, h2]
    | some oid =>
      by_cases hdead : charDeadIn db wid oid = true
      · simp [hov, hdead, h2]
      · simp [hov, Bool.eq_false_iff.mpr hdead, h2]
  · intro c hc hcw
    have hdead : charDeadIn db wid c.character_id = true := by
      rw [charDeadIn, List.any_eq_true]
      exact ⟨c, hc, by simp [hcw]⟩
    constructor
    · unfold getCharacterRelationships
      rw [show (db.relationships.filter (fun r =>
          !(r.world_id == wid || charDeadIn db wid r.character_a_id ||
            charDeadIn db wid r.character_b_id))).filter (fun r =>
          r.character_a_id == c.character_id ||
          r.character_b_id == c.character_id) = [] from ?_, List.mergeSort_nil]
      rw [List.filter_eq_nil_iff]
      intro x hx
      have h2 := (List.mem_filter.mp hx).2
      simp only [Bool.not_eq_true', Bool.or_eq_false_iff] at h2
      simp only [Bool.or_eq_true, beq_iff_eq]
      rintro (hxa | hxb)
      · rw [hxa] at h2; exact absurd hdead (by simp [h2.1.2])
      · rw [hxb] at h2; exact absurd hdead (by simp [h2.2])
    · unfold getCharacterInventory
      rw [show (db.inventory.filter (fun v =>
          !(charDeadIn db wid v.character_id ||
            instDeadIn db wid v.item_instance_id))).filter (fun i =>
          i.character_id == c.character_id) = [] from ?_]
      · rw [List.filterMap_nil, List.mergeSort_nil]
      rw [List.filter_eq_nil_iff]
      intro x hx
      have h2 := (List.mem_filter.mp hx).2
      simp only [Bool.not_eq_true', Bool.or_eq_false_iff] at h2
      simp only [beq_iff_eq]
      intro hxc
      rw [hxc] at h2
      exact absurd hdead (by simp [h2.1])
  · intro v hv hvw
    have hdead : vehDeadIn db wid v.vehicle_id = true := by
      rw [vehDeadIn, List.any_eq_true]
      exact ⟨v, hv, by simp [hvw]⟩
    rw [List.filter_eq_nil_iff]
    intro x hx
    have h2 := (List.mem_filter.mp hx).2
    simp only [Bool.not_eq_true', Bool.or_eq_false_iff] at h2
    simp only [beq_iff_eq]
    intro hxv
    rw [hxv] at h2
    exact absurd hdead (by simp [h2.1])
  · intro x hx hxdead
    have hdead : instDeadIn db wid x.instance_id = true := by
      rw [instDeadIn, List.any_eq_true]
      exact ⟨x, hx, by simp [hxdead]⟩
    constructor
    · rw [List.filter_eq_nil_iff]
      intro i hi
      have h2 := (List.mem_filter.mp hi).2
      simp only [Bool.not_eq_true', Bool.or_eq_false_iff] at h2
      simp only [beq_iff_eq]
      intro hii
      rw [hii] at h2
      exact absurd hdead (by simp [h2.2])
    · rw [List.filter_eq_nil_iff]
      intro i hi
      have h2 := (List.mem_filter.mp hi).2
      simp only [Bool.not_eq_true', Bool.or_eq_false_iff] at h2
      simp only [beq_iff_eq]
      intro hii
      rw [hii] at h2
      exact absurd hdead (by simp [h2.2])
  · intro w hw hne
    exact List.mem_filter.mpr ⟨hw, by simp [hne]⟩
  · intro c hc hne
    exact List.mem_filter.mpr ⟨hc, by simp [hne]⟩
  · intro k hk hne
    exact List.mem_filter.mpr ⟨hk, by simp [hne]⟩
  · intro i hi hne
    exact List.mem_filter.mpr ⟨hi, by simp [hne]⟩
  · intro x hx hne ha hb
    exact List.mem_filter.mpr ⟨hx, by simp [hne, ha, hb]⟩
  · intro x hx hlive
    exact List.mem_filter.mpr ⟨hx, by simp [hlive]⟩
  · intro i hi hclive hilive
    exact List.mem_filter.mpr ⟨hi, by simp [hclive, hilive]⟩
  · intro v hv hne
    exact List.mem_map_of_mem _ (List.mem_filter.mpr ⟨hv, by simp [hne]⟩)
  · intro x hx hvlive hilive
    exact List.mem_filter.mpr ⟨hx, by simp [hvlive, hilive]⟩

/-- A store populating every table across two worlds, with a cross-world
vehicle owner. -/
def sampleCharB : Character :=
  { character_id := 3, world_id := 2, name := "Borin", type := "npc",
    species := "dwarf", skills_json := "\x7b\x7d", location_x := 0,
    location_y := 0, current_health := 90, max_health := 90,
    state_json := "\x7b\x7d" }

def itemA : Item :=
  { item_id := 1, world_id := 1, name := "Sword", description := "steel",
    type := "weapon", base_properties_json := "\x7b\x7d", is_unique := false }

def itemB : Item :=
  { item_id := 2, world_id := 2, name := "Gear", description := "brass",
    type := "resource", base_properties_json := "\x7b\x7d", is_unique := false }

def instA : ItemInstance :=
  { instance_id := 1, world_id := 1, item_id := 1,
    created_at := some "2024-01-01T00:00:00", custom_name := "SwordA",
    current_properties_json := "\x7b\x7d" }

def instB : ItemInstance :=
  { instance_id := 2, world_id := 2, item_id := 2,
    created_at := some "2024-01-01T00:00:00", custom_name := "GearB",
    current_properties_json := "\x7b\x7d" }

def invA : Inventory :=
  { inventory_id := 1, character_id := 1, item_instance_id := 1, quantity := 1,
    condition := 95, custom_properties_json := "\x7b\x7d" }

def invB : Inventory :=
  { inventory_id := 2, character_id := 3, item_instance_id := 2, quantity := 1,
    condition := 80, custom_properties_json := "\x7b\x7d" }

def vehA : Vehicle :=
  { vehicle_id := 1, world_id := 1, owner_id := none, type := "mechanical",
    name := "Wagon", components_json := "\x7b\x7d", location_x := none,
    location_y := none, capacity := 2, current_health := none, max_health := none }

def vehB : Vehicle :=
  { vehicle_id := 2, world_id := 2, owner_id := some 1, type := "magical",
    name := "Skiff", components_json := "\x7b\x7d", location_x := none,
    location_y := none, capacity := 1, current_health := none, max_health := none }

def viA : VehicleInventory :=
  { vehicle_inv_id := 1, vehicle_id := 1, item_instance_id := 1, quantity := 1,
    slot := none }

def viB : VehicleInventory :=
  { vehicle_inv_id := 2, vehicle_id := 2, item_instance_id := 2, quantity := 1,
    slot := none }

def constA : WorldConstant :=
  { constant_id := 1, world_id := 1, constant_key := "GRAVITY",
    constant_value := "9.78", data_type := "REAL", description := "g" }

def constB : WorldConstant :=
  { constant_id := 2, world_id := 2, constant_key := "STEAM",
    constant_value := "42", data_type := "INTEGER", description := "psi" }

def fullDb : GameDB :=
  { worlds := [sampleWorld, sampleWorldB], worldConstants := [constA, constB],
    characters := [sampleChar, sampleChar2, sampleCharB],
    relationships := [sampleRel], items := [itemA, itemB],
    itemInstances := [instA, instB], inventory := [invA, invB],
    vehicles := [vehA, vehB], vehicleInventory := [viA, viB],
    worldSeq := 3, characterSeq := 4, constantSeq := 3, relationshipSeq := 2 }

/-- Witness for the amended C1: deleting world 1 from the fully populated
store empties every world-1-scoped lookup while world-2 rows survive —
the cross-owned vehicle in nulled-owner form. -/
theorem deleteWorld_cascade_spec_witness :
    getWorld (deleteWorld fullDb 1).1 1 = none ∧
    getWorldCharacters (deleteWorld fullDb 1).1 1 = [] ∧
    getCharacterRelationships (deleteWorld fullDb 1).1 sampleChar.character_id = [] ∧
    getCharacterInventory (deleteWorld fullDb 1).1 sampleChar.character_id = [] ∧
    sampleWorldB ∈ (deleteWorld fullDb 1).1.worlds ∧
    sampleCharB ∈ (deleteWorld fullDb 1).1.characters ∧
    constB ∈ (deleteWorld fullDb 1).1.worldConstants ∧
    invB ∈ (deleteWorld fullDb 1).1.inventory ∧
    { vehB with owner_id := none } ∈ (deleteWorld fullDb 1).1.vehicles ∧
    viB ∈ (deleteWorld fullDb 1).1.vehicleInventory := by
  obtain ⟨h1, h2, _, _, _, _, _, h8, _, _, h11, h12, h13, _, _, _, h17, h18, h19⟩ :=
    deleteWorld_cascade_spec fullDb 1 _ rfl
  have h8c := h8 sampleChar (by decide) (by decide)
  refine ⟨h1, h2, h8c.1, h8c.2, h11 sampleWorldB (by decide) (by decide),
    h12 sampleCharB (by decide) (by decide), h13 constB (by decide) (by decide),
    h17 invB (by decide) (by decide) (by decide), ?_,
    h19 viB (by decide) (by decide) (by decide)⟩
  exact h18 vehB (by decide) (by decide)

/-! ## JSON encoding and decoding

The JSON-map fields (`World.settings`, `Character.skills`,
`Character.state`, `Item.base_properties`, `ItemInstance.current_properties`,
`Inventory.custom_properties`, `Vehicle.components`) store
`json.dumps(value, ensure_ascii=False)` text and decode it with
`json.loads` (src/models.py).  Both are modelled below.  JSON numbers are
modelled as integers: the IEEE float spellings are outside the shallow
embedding.  Python dicts keep insertion order and are modelled as
association lists; `json.dumps` uses the default separators
(value-comma-space, key-colon-space) and with ensure_ascii=False emits
characters from 0x20 up raw, escaping only the quote, the backslash, the
short control escapes and other control characters as \u00XX. -/

inductive Json where
  | null : Json
  | bool (b : Bool) : Json
  | num (n : Int) : Json
  | str (s : List Char) : Json
  | arr (elems : List Json) : Json
  | obj (fields : List (List Char × Json)) : Json

/-- Decimal digits of a natural number, most significant first. -/
def natDigits (n : Nat) : List Char :=
  if h : n < 10 then [Char.ofNat (48 + n)]
  else natDigits (n / 10) ++ [Char.ofNat (48 + n % 10)]
decreasing_by exact Nat.div_lt_self (by omega) (by omega)

/-- Python repr of an int as json.dumps emits it. -/
def dumpsInt (k : Int) : List Char :=
  if k < 0 then '-' :: natDigits k.natAbs else natDigits k.toNat

/-- Lowercase hex digit, as Python %04x formatting uses. -/
def hexDigit (d : Nat) : Char :=
  if d < 10 then Char.ofNat (48 + d) else Char.ofNat (87 + d)

/-- How json.dumps with ensure_ascii=False writes one character inside a
string literal (the ESCAPE_DCT of the json module). -/
def escapeChar (c : Char) : List Char :=
  if c = '"' then ['\\', '"']
  else if c = '\\' then ['\\', '\\']
  else if c = '\n' then ['\\', 'n']
  else if c = '\t' then ['\\', 't']
  else if c = '\r' then ['\\', 'r']
  else if c = '\x08' then ['\\', 'b']
  else if c = '\x0c' then ['\\', 'f']
  else if c.toNat < 0x20 then
    ['\\', 'u', '0', '0', hexDigit (c.toNat / 16), hexDigit (c.toNat % 16)]
  else [c]

/-- A json string literal: quote, escaped characters, quote. -/
def dumpsStr (s : List Char) : List Char :=
  '"' :: s.flatMap escapeChar ++ ['"']

mutual

/-- json.dumps with the default separators and ensure_ascii=False, over
the character list of the output. -/
def dumpsVal : Json → List Char
  | .bool b => if b then "true".toList else "false".toList
  | .null => "null".toList
  | .num k => dumpsInt k
  | .str s => dumpsStr s
  | .arr l => '[' :: dumpsArr l ++ [']']
  | .obj l => '\x7b' :: dumpsObj l ++ ['\x7d']

/-- Array elements joined by comma-space. -/
def dumpsArr : List Json → List Char
  | [] => []
  | [x] => dumpsVal x
  | x :: y :: xs => dumpsVal x ++ ',' :: ' ' :: dumpsArr (y :: xs)

/-- Object members (quoted key, colon-space, value) joined by
comma-space. -/
def dumpsObj : List (List Char × Json) → List Char
  | [] => []
  | [(k, v)] => dumpsStr k ++ ':' :: ' ' :: dumpsVal v
  | (k, v) :: y :: xs =>
      dumpsStr k ++ ':' :: ' ' :: dumpsVal v ++ ',' :: ' ' :: dumpsObj (y :: xs)

end

/-- The string json.dumps returns. -/
def dumps (v : Json) : String := String.mk (dumpsVal v)

/-- JSON whitespace. -/
def isJsonWs (c : Char) : Bool :=
  c == ' ' || c == '\t' || c == '\n' || c == '\r'

def skipWs (l : List Char) : List Char := l.dropWhile isJsonWs

/-- Value of one hex digit, upper or lower case. -/
def parseHex (c : Char) : Option Nat :=
  if 48 ≤ c.toNat ∧ c.toNat ≤ 57 then some (c.toNat - 48)
  else if 97 ≤ c.toNat ∧ c.toNat ≤ 102 then some (c.toNat - 87)
  else if 65 ≤ c.toNat ∧ c.toNat ≤ 70 then some (c.toNat - 55)
  else none

mutual

/-- The body of a json string literal after the opening quote, strict
mode: raw control characters are refused, escapes decoded. -/
def parseStrChars : Nat → List Char → Option (List Char × List Char)
  | 0, _ => none
  | _ + 1, [] => none
  | fuel + 1, c :: rest =>
    if c = '"' then some ([], rest)
    else if c = '\\' then parseEsc fuel rest
    else if 0x20 ≤ c.toNat then
      (parseStrChars fuel rest).map (fun p => (c :: p.1, p.2))
    else none

/-- The remainder of an escape sequence after the backslash. -/
def parseEsc : Nat → List Char → Option (List Char × List Char)
  | 0, _ => none
  | _ + 1, [] => none
  | fuel + 1, e :: rest2 =>
    if e = '"' then (parseStrChars fuel rest2).map (fun p => ('"' :: p.1, p.2))
    else if e = '\\' then (parseStrChars fuel rest2).map (fun p => ('\\' :: p.1, p.2))
    else if e = '/' then (parseStrChars fuel rest2).map (fun p => ('/' :: p.1, p.2))
    else if e = 'n' then (parseStrChars fuel rest2).map (fun p => ('\n' :: p.1, p.2))
    else if e = 't' then (parseStrChars fuel rest2).map (fun p => ('\t' :: p.1, p.2))
    else if e = 'r' then (parseStrChars fuel rest2).map (fun p => ('\r' :: p.1, p.2))
    else if e = 'b' then (parseStrChars fuel rest2).map (fun p => ('\x08' :: p.1, p.2))
    else if e = 'f' then (parseStrChars fuel rest2).map (fun p => ('\x0c' :: p.1, p.2))
    else if e = 'u' then
      match rest2 with
      | h1 :: h2 :: h3 :: h4 :: rest3 =>
        match parseHex h1, parseHex h2, parseHex h3, parseHex h4 with
        | some a, some b, some c2, some d =>
            let n := ((a * 16 + b) * 16 + c2) * 16 + d
            if n.isValidChar then
              (parseStrChars fuel rest3).map (fun p => (Char.ofNat n :: p.1, p.2))
            else none
        | _, _, _, _ => none
      | _ => none
    else none

end

/-- A maximal run of decimal digits and its value. -/
def parseNatNum (input : List Char) : Option (Nat × List Char) :=
  let digits := input.takeWhile Char.isDigit
  if digits.isEmpty then none
  else some (digitsToNat digits, input.dropWhile Char.isDigit)

mutual

/-- One json value (json.loads grammar, strict): leading whitespace
skipped, then null, booleans, a string, an array, an object or a number.
Fuel decreases on every container step. -/
def parseVal : Nat → List Char → Option (Json × List Char)
  | 0, _ => none
  | fuel + 1, input =>
    match skipWs input with
    | [] => none
    | c :: r =>
      if c.isDigit then
        (parseNatNum (c :: r)).map (fun p => (.num (p.1 : Int), p.2))
      else if c = '-' then
        (parseNatNum r).map (fun p => (.num (-(p.1 : Int)), p.2))
      else if c = 'n' then
        match r with
        | 'u' :: 'l' :: 'l' :: r2 => some (.null, r2)
        | _ => none
      else if c = 't' then
        match r with
        | 'r' :: 'u' :: 'e' :: r2 => some (.bool true, r2)
        | _ => none
      else if c = 'f' then
        match r with
        | 'a' :: 'l' :: 's' :: 'e' :: r2 => some (.bool false, r2)
        | _ => none
      else if c = '"' then
        (parseStrChars (r.length + 1) r).map (fun p => (.str p.1, p.2))
      else if c = '[' then
        match skipWs r with
        | [] => none
        | d :: r2 =>
          if d = ']' then some (.arr [], r2)
          else (parseElems fuel (d :: r2)).map (fun p => (.arr p.1, p.2))
      else if c = '\x7b' then
        match skipWs r with
        | [] => none
        | d :: r2 =>
          if d = '\x7d' then some (.obj [], r2)
          else (parseMembers fuel (d :: r2)).map (fun p => (.obj p.1, p.2))
      else none

/-- One or more array elements up to the closing bracket. -/
def parseElems : Nat → List Char → Option (List Json × List Char)
  | 0, _ => none
  | fuel + 1, input =>
    match parseVal fuel input with
    | none => none
    | some (v, r) =>
      match skipWs r with
      | [] => none
      | d :: r2 =>
        if d = ']' then some ([v], r2)
        else if d = ',' then
          match parseElems fuel r2 with
          | some (vs, r3) => some (v :: vs, r3)
          | none => none
        else none

/-- One or more object members up to the closing brace. -/
def parseMembers : Nat → List Char → Option (List (List Char × Json) × List Char)
  | 0, _ => none
  | fuel + 1, input =>
    match skipWs input with
    | [] => none
    | c :: r =>
      if c = '"' then
        match parseStrChars (r.length + 1) r with
        | none => none
        | some (k, r2) =>
          match skipWs r2 with
          | [] => none
          | d :: r3 =>
            if d = ':' then
              match parseVal fuel r3 with
              | none => none
              | some (v, r4) =>
                match skipWs r4 with
                | [] => none
                | e :: r5 =>
                  if e = '\x7d' then some ([(k, v)], r5)
                  else if e = ',' then
                    match parseMembers fuel r5 with
                    | some (ms, r6) => some ((k, v) :: ms, r6)
                    | none => none
                  else none
            else none
      else none

end

/-- json.loads: parse one document and demand that only whitespace
remains (extra data is a decode error); any failure is the decode
error, modelled as none. -/
def loads (s : String) : Option Json :=
  match parseVal (s.toList.length + 1) s.toList with
  | some (v, rest) => if skipWs rest = [] then some v else none
  | none => none

/-! ### Round-trip support: numbers -/

theorem natDigits_ne_nil (n : Nat) : natDigits n ≠ [] := by
  rw [natDigits]
  split <;> simp

theorem natDigits_all_digits (n : Nat) : ∀ c ∈ natDigits n, c.isDigit = true := by
  induction n using natDigits.induct with
  | case1 n hn =>
    rw [natDigits, dif_pos hn]
    intro c hc
    simp only [List.mem_singleton] at hc
    subst hc
    revert hn
    revert n
    decide
  | case2 n hn ih =>
    rw [natDigits, dif_neg hn]
    intro c hc
    rcases List.mem_append.mp hc with h | h
    · exact ih c h
    · simp only [List.mem_singleton] at h
      subst h
      have h10 : n % 10 < 10 := Nat.mod_lt _ (by omega)
      revert h10
      generalize n % 10 = d
      revert d
      decide

theorem digitsToNat_natDigits (n : Nat) : digitsToNat (natDigits n) = n := by
  induction n using natDigits.induct with
  | case1 n hn =>
    rw [natDigits, dif_pos hn]
    show 10 * 0 + ((Char.ofNat (48 + n)).toNat - 48) = n
    have : (Char.ofNat (48 + n)).toNat = 48 + n := by
      revert hn; revert n; decide
    omega
  | case2 n hn ih =>
    rw [natDigits, dif_neg hn]
    unfold digitsToNat
    rw [List.foldl_append]
    show 10 * digitsToNat (natDigits (n / 10)) + ((Char.ofNat (48 + n % 10)).toNat - 48) = n
    rw [ih]
    have h10 : n % 10 < 10 := Nat.mod_lt _ (by omega)
    have : (Char.ofNat (48 + n % 10)).toNat = 48 + n % 10 := by
      revert h10; generalize n % 10 = d; revert d; decide
    omega

/-- The continuation after a printed number must not begin with a digit
(in printed json it is a separator, a closer or the end). -/
def headNotDigit : List Char → Prop
  | [] => True
  | c :: _ => c.isDigit = false

theorem parseNatNum_natDigits (n : Nat) (rest : List Char) (hrest : headNotDigit rest) :
    parseNatNum (natDigits n ++ rest) = some (n, rest) := by
  have htake : (natDigits n ++ rest).takeWhile Char.isDigit = natDigits n := by
    rw [List.takeWhile_append]
    have hall : (natDigits n).takeWhile Char.isDigit = natDigits n :=
      List.takeWhile_eq_self_iff.mpr (natDigits_all_digits n)
    rw [if_pos (by rw [hall])]
    cases rest with
    | nil => simp
    | cons c t =>
      have : c.isDigit = false := hrest
      simp [List.takeWhile_cons, this]
  have hdrop : (natDigits n ++ rest).dropWhile Char.isDigit = rest := by
    rw [List.dropWhile_append]
    have hall : (natDigits n).dropWhile Char.isDigit = [] :=
      List.dropWhile_eq_nil_iff.mpr (natDigits_all_digits n)
    rw [if_pos (by rw [hall]; rfl)]
    cases rest with
    | nil => rfl
    | cons c t =>
      have : c.isDigit = false := hrest
      simp [List.dropWhile_cons, this]
  unfold parseNatNum
  rw [htake, hdrop]
  rw [if_neg (by simp [natDigits_ne_nil n])]
  rw [digitsToNat_natDigits]

/-! ### Round-trip support: strings -/

theorem parseHex_hexDigit : ∀ d, d < 16 → parseHex (hexDigit d) = some d := by decide

theorem parseStrChars_escape (s : List Char) :
    ∀ (fuel : Nat) (rest : List Char), (s.flatMap escapeChar).length < fuel →
      parseStrChars fuel (s.flatMap escapeChar ++ '"' :: rest) = some (s, rest) := by
  induction s with
  | nil =>
    intro fuel rest hfuel
    obtain ⟨f, rfl⟩ : ∃ f, fuel = f + 1 := ⟨fuel - 1, by omega⟩
    simp [parseStrChars]
  | cons c t ih =>
    intro fuel rest hfuel
    rw [List.flatMap_cons] at hfuel ⊢
    rw [List.append_assoc]
    obtain ⟨f, rfl⟩ : ∃ f, fuel = f + 1 :=
      ⟨fuel - 1, by simp at hfuel; omega⟩
    by_cases h1 : c = '"'
    · subst h1
      rw [show escapeChar '"' = ['\\', '"'] from rfl] at hfuel ⊢
      obtain ⟨g, rfl⟩ : ∃ g, f = g + 1 := ⟨f - 1, by simp at hfuel; omega⟩
      have ht := ih g rest (by simp at hfuel ⊢; omega)
      simp [parseStrChars, parseEsc, ht]
    by_cases h2 : c = '\\'
    · subst h2
      rw [show escapeChar '\\' = ['\\', '\\'] from rfl] at hfuel ⊢
      obtain ⟨g, rfl⟩ : ∃ g, f = g + 1 := ⟨f - 1, by simp at hfuel; omega⟩
      have ht := ih g rest (by simp at hfuel ⊢; omega)
      simp [parseStrChars, parseEsc, ht]
    by_cases h3 : c = '\n'
    · subst h3
      rw [show escapeChar '\n' = ['\\', 'n'] from rfl] at hfuel ⊢
      obtain ⟨g, rfl⟩ : ∃ g, f = g + 1 := ⟨f - 1, by simp at hfuel; omega⟩
      have ht := ih g rest (by simp at hfuel ⊢; omega)
      simp [parseStrChars, parseEsc, ht]
    by_cases h4 : c = '\t'
    · subst h4
      rw [show escapeChar '\t' = ['\\', 't'] from rfl] at hfuel ⊢
      obtain ⟨g, rfl⟩ : ∃ g, f = g + 1 := ⟨f - 1, by simp at hfuel; omega⟩
      have ht := ih g rest (by simp at hfuel ⊢; omega)
      simp [parseStrChars, parseEsc, ht]
    by_cases h5 : c = '\r'
    · subst h5
      rw [show escapeChar '\r' = ['\\', 'r'] from rfl] at hfuel ⊢
      obtain ⟨g, rfl⟩ : ∃ g, f = g + 1 := ⟨f - 1, by simp at hfuel; omega⟩
      have ht := ih g rest (by simp at hfuel ⊢; omega)
      simp [parseStrChars, parseEsc, ht]
    by_cases h6 : c = '\x08'
    · subst h6
      rw [show escapeChar '\x08' = ['\\', 'b'] from rfl] at hfuel ⊢
      obtain ⟨g, rfl⟩ : ∃ g, f = g + 1 := ⟨f - 1, by simp at hfuel; omega⟩
      have ht := ih g rest (by simp at hfuel ⊢; omega)
      simp [parseStrChars, parseEsc, ht]
    by_cases h7 : c = '\x0c'
    · subst h7
      rw [show escapeChar '\x0c' = ['\\', 'f'] from rfl] at hfuel ⊢
      obtain ⟨g, rfl⟩ : ∃ g, f = g + 1 := ⟨f - 1, by simp at hfuel; omega⟩
      have ht := ih g rest (by simp at hfuel ⊢; omega)
      simp [parseStrChars, parseEsc, ht]
    by_cases h8 : c.toNat < 0x20
    · have he : escapeChar c =
          ['\\', 'u', '0', '0', hexDigit (c.toNat / 16), hexDigit (c.toNat % 16)] := by
        rw [escapeChar, if_neg h1, if_neg h2, if_neg h3, if_neg h4, if_neg h5,
          if_neg h6, if_neg h7, if_pos h8]
      rw [he] at hfuel ⊢
      obtain ⟨g, rfl⟩ : ∃ g, f = g + 1 := ⟨f - 1, by simp at hfuel; omega⟩
      have ht := ih g rest (by simp at hfuel ⊢; omega)
      have hhi : c.toNat / 16 < 16 := by omega
      have hlo : c.toNat % 16 < 16 := Nat.mod_lt _ (by omega)
      have hvalid : (((0 * 16 + 0) * 16 + c.toNat / 16) * 16 + c.toNat % 16).isValidChar := by
        refine Or.inl ?_
        have := Nat.div_add_mod c.toNat 16
        omega
      simp only [List.cons_append, List.nil_append]
      rw [parseStrChars]
      rw [if_neg (by decide : ¬('\\' = '"')), if_pos rfl]
      rw [parseEsc]
      simp only [if_neg (by decide : ¬('u' = '"')),
        if_neg (by decide : ¬('u' = '\\')), if_neg (by decide : ¬('u' = '/')),
        if_neg (by decide : ¬('u' = 'n')), if_neg (by decide : ¬('u' = 't')),
        if_neg (by decide : ¬('u' = 'r')), if_neg (by decide : ¬('u' = 'b')),
        if_neg (by decide : ¬('u' = 'f')), if_pos (rfl : 'u' = 'u')]
      rw [show parseHex '0' = some 0 from by decide,
        parseHex_hexDigit _ hhi, parseHex_hexDigit _ hlo]
      simp only [if_pos hvalid]
      rw [ht]
      have harith : c.toNat / 16 * 16 + c.toNat % 16 = c.toNat := by
        have := Nat.div_add_mod c.toNat 16
        omega
      simp [harith, Char.ofNat_toNat]
    · have he : escapeChar c = [c] := by
        rw [escapeChar, if_neg h1, if_neg h2, if_neg h3, if_neg h4, if_neg h5,
          if_neg h6, if_neg h7, if_neg h8]
      rw [he] at hfuel ⊢
      have ht := ih f rest (by simp at hfuel ⊢; omega)
      simp only [List.singleton_append]
      rw [parseStrChars]
      rw [if_neg h1, if_neg h2, if_pos (by omega : 0x20 ≤ c.toNat)]
      simp [ht]

/-! ### Round-trip support: fuel and head shapes -/

mutual

/-- Fuel sufficient for `parseVal` on the printed value. -/
def fuelVal : Json → Nat
  | .arr l => 1 + fuelArr l
  | .obj l => 1 + fuelObj l
  | _ => 1

def fuelArr : List Json → Nat
  | [] => 1
  | x :: xs => 1 + max (fuelVal x) (fuelArr xs)

def fuelObj : List (List Char × Json) → Nat
  | [] => 1
  | (_, v) :: xs => 1 + max (fuelVal v) (fuelObj xs)

end

theorem fuelVal_pos (v : Json) : 1 ≤ fuelVal v := by
  cases v <;> simp [fuelVal]

theorem skipWs_cons_of_not_ws {c : Char} (l : List Char) (h : isJsonWs c = false) :
    skipWs (c :: l) = c :: l := by
  simp [skipWs, List.dropWhile_cons, h]

theorem skipWs_ws_append (pre : List Char) (l : List Char)
    (h : ∀ c ∈ pre, isJsonWs c = true) : skipWs (pre ++ l) = skipWs l := by
  induction pre with
  | nil => rfl
  | cons c t ih =>
    rw [List.cons_append, skipWs, List.dropWhile_cons,
      if_pos (h c (List.mem_cons_self c t))]
    exact ih (fun d hd => h d (List.mem_cons_of_mem c hd))

theorem digit_not_special {c : Char} (hd : c.isDigit = true) :
    isJsonWs c = false ∧ c ≠ ']' ∧ c ≠ '\x7d' ∧ c ≠ ',' ∧ c ≠ '-' := by
  refine ⟨?_, ?_, ?_, ?_, ?_⟩
  · by_contra h
    rw [Bool.not_eq_false] at h
    rcases Bool.or_eq_true_iff.mp h with h2 | h2
    · rcases Bool.or_eq_true_iff.mp h2 with h3 | h3
      · rcases Bool.or_eq_true_iff.mp h3 with h4 | h4
        · rw [show c = ' ' from by simpa using h4] at hd; exact absurd hd (by decide)
        · rw [show c = '\t' from by simpa using h4] at hd; exact absurd hd (by decide)
      · rw [show c = '\n' from by simpa using h3] at hd; exact absurd hd (by decide)
    · rw [show c = '\r' from by simpa using h2] at hd; exact absurd hd (by decide)
  · intro h; rw [h] at hd; exact absurd hd (by decide)
  · intro h; rw [h] at hd; exact absurd hd (by decide)
  · intro h; rw [h] at hd; exact absurd hd (by decide)
  · intro h; rw [h] at hd; exact absurd hd (by decide)

/-- Every printed value starts with a character that is no whitespace,
no closer and no comma. -/
theorem dumpsVal_head_shape (v : Json) :
    ∃ c t, dumpsVal v = c :: t ∧ isJsonWs c = false ∧ c ≠ ']' ∧ c ≠ '\x7d' ∧ c ≠ ',' := by
  cases v with
  | null => exact ⟨'n', _, rfl, by decide, by decide, by decide, by decide⟩
  | bool b =>
    cases b with
    | true => exact ⟨'t', _, rfl, by decide, by decide, by decide, by decide⟩
    | false => exact ⟨'f', _, rfl, by decide, by decide, by decide, by decide⟩
  | num k =>
    show ∃ c t, dumpsInt k = c :: t ∧ _
    unfold dumpsInt
    by_cases hk : k < 0
    · rw [if_pos hk]
      exact ⟨'-', _, rfl, by decide, by decide, by decide, by decide⟩
    · rw [if_neg hk]
      cases hnd : natDigits k.toNat with
      | nil => exact absurd hnd (natDigits_ne_nil _)
      | cons d t =>
        have hdig : d.isDigit = true :=
          natDigits_all_digits _ d (hnd ▸ List.mem_cons_self d t)
        obtain ⟨hws, hrb, hcb, hcm, _⟩ := digit_not_special hdig
        exact ⟨d, t, rfl, hws, hrb, hcb, hcm⟩
  | str s => exact ⟨'"', _, rfl, by decide, by decide, by decide, by decide⟩
  | arr l => exact ⟨'[', _, rfl, by decide, by decide, by decide, by decide⟩
  | obj l => exact ⟨'\x7b', _, rfl, by decide, by decide, by decide, by decide⟩

/-- The printed form of a nonempty array is its first element's print
followed by either nothing or a comma-separated tail. -/
theorem dumpsArr_cons_eq (x : Json) (xs : List Json) :
    ∃ u, dumpsArr (x :: xs) = dumpsVal x ++ u := by
  cases xs with
  | nil => exact ⟨[], by simp [dumpsArr]⟩
  | cons y ys => exact ⟨',' :: ' ' :: dumpsArr (y :: ys), by simp [dumpsArr]⟩

theorem headNotDigit_cons {c : Char} (h : c.isDigit = false) (r : List Char) :
    headNotDigit (c :: r) := h

/-! ### The printer-parser round trip -/

mutual

/-- A printed value, preceded by whitespace and followed by any
non-digit-headed continuation, parses back to itself. -/
theorem parse_dumps_val : ∀ (v : Json) (pre : List Char) (fuel : Nat) (rest : List Char),
    (∀ c ∈ pre, isJsonWs c = true) → fuelVal v ≤ fuel → headNotDigit rest →
    parseVal fuel (pre ++ dumpsVal v ++ rest) = some (v, rest)
  | .null, pre, fuel, rest => fun hpre hfuel hrest => by
    obtain ⟨f, rfl⟩ : ∃ f, fuel = f + 1 :=
      ⟨fuel - 1, by have := fuelVal_pos .null; omega⟩
    rw [parseVal, List.append_assoc]
    rw [show dumpsVal .null ++ rest = 'n' :: ('u' :: 'l' :: 'l' :: rest) from rfl]
    rw [skipWs_ws_append pre _ hpre, skipWs_cons_of_not_ws _ (by decide)]
    rfl
  | .bool true, pre, fuel, rest => fun hpre hfuel hrest => by
    obtain ⟨f, rfl⟩ : ∃ f, fuel = f + 1 :=
      ⟨fuel - 1, by have := fuelVal_pos (.bool true); omega⟩
    rw [parseVal, List.append_assoc]
    rw [show dumpsVal (.bool true) ++ rest = 't' :: ('r' :: 'u' :: 'e' :: rest) from rfl]
    rw [skipWs_ws_append pre _ hpre, skipWs_cons_of_not_ws _ (by decide)]
    rfl
  | .bool false, pre, fuel, rest => fun hpre hfuel hrest => by
    obtain ⟨f, rfl⟩ : ∃ f, fuel = f + 1 :=
      ⟨fuel - 1, by have := fuelVal_pos (.bool false); omega⟩
    rw [parseVal, List.append_assoc]
    rw [show dumpsVal (.bool false) ++ rest =
      'f' :: ('a' :: 'l' :: 's' :: 'e' :: rest) from rfl]
    rw [skipWs_ws_append pre _ hpre, skipWs_cons_of_not_ws _ (by decide)]
    rfl
  | .num k, pre, fuel, rest => fun hpre hfuel hrest => by
    obtain ⟨f, rfl⟩ : ∃ f, fuel = f + 1 :=
      ⟨fuel - 1, by have := fuelVal_pos (.num k); omega⟩
    rw [parseVal, List.append_assoc]
    rw [show dumpsVal (.num k) = dumpsInt k from rfl]
    by_cases hk : k < 0
    · rw [dumpsInt, if_pos hk]
      rw [show ('-' :: natDigits k.natAbs) ++ rest =
        '-' :: (natDigits k.natAbs ++ rest) from rfl]
      rw [skipWs_ws_append pre _ hpre, skipWs_cons_of_not_ws _ (by decide)]
      dsimp only
      rw [if_neg (by decide : ¬(('-').isDigit = true)), if_pos rfl]
      rw [parseNatNum_natDigits _ _ hrest]
      have hval : -((k.natAbs : Int)) = k := by omega
      show some (Json.num (-((k.natAbs : Nat) : Int)), rest) = some (Json.num k, rest)
      rw [hval]
    · rw [dumpsInt, if_neg hk]
      cases hnd : natDigits k.toNat with
      | nil => exact absurd hnd (natDigits_ne_nil _)
      | cons d t =>
        have hdig : d.isDigit = true :=
          natDigits_all_digits _ d (hnd ▸ List.mem_cons_self d t)
        obtain ⟨hws, _, _, _, _⟩ := digit_not_special hdig
        rw [show (d :: t) ++ rest = d :: (t ++ rest) from rfl]
        rw [skipWs_ws_append pre _ hpre, skipWs_cons_of_not_ws _ hws]
        dsimp only
        rw [if_pos hdig]
        rw [show d :: (t ++ rest) = (d :: t) ++ rest from rfl, ← hnd]
        rw [parseNatNum_natDigits _ _ hrest]
        have hval : ((k.toNat : Nat) : Int) = k := by omega
        show some (Json.num ((k.toNat : Nat) : Int), rest) = some (Json.num k, rest)
        rw [hval]
  | .str s, pre, fuel, rest => fun hpre hfuel hrest => by
    obtain ⟨f, rfl⟩ : ∃ f, fuel = f + 1 :=
      ⟨fuel - 1, by have := fuelVal_pos (.str s); omega⟩
    rw [parseVal, List.append_assoc]
    rw [show dumpsVal (.str s) ++ rest =
      '"' :: (s.flatMap escapeChar ++ '"' :: rest) from by simp [dumpsVal, dumpsStr]]
    rw [skipWs_ws_append pre _ hpre, skipWs_cons_of_not_ws _ (by decide)]
    dsimp only
    rw [if_neg (by decide : ¬(('"').isDigit = true)),
      if_neg (by decide : ¬('"' = '-')), if_neg (by decide : ¬('"' = 'n')),
      if_neg (by decide : ¬('"' = 't')), if_neg (by decide : ¬('"' = 'f')),
      if_pos (rfl : '"' = '"')]
    rw [parseStrChars_escape s _ rest (by simp [List.length_append]; omega)]
    rfl
  | .arr [], pre, fuel, rest => fun hpre hfuel hrest => by
    obtain ⟨f, rfl⟩ : ∃ f, fuel = f + 1 :=
      ⟨fuel - 1, by have := fuelVal_pos (.arr []); omega⟩
    rw [parseVal, List.append_assoc]
    rw [show dumpsVal (.arr []) ++ rest = '[' :: (']' :: rest) from by
      simp [dumpsVal, dumpsArr]]
    rw [skipWs_ws_append pre _ hpre, skipWs_cons_of_not_ws _ (by decide)]
    rfl
  | .arr (x :: xs), pre, fuel, rest => fun hpre hfuel hrest => by
    obtain ⟨f, rfl⟩ : ∃ f, fuel = f + 1 :=
      ⟨fuel - 1, by have := fuelVal_pos (.arr (x :: xs)); omega⟩
    rw [parseVal, List.append_assoc]
    rw [show dumpsVal (.arr (x :: xs)) ++ rest =
      '[' :: (dumpsArr (x :: xs) ++ ']' :: rest) from by simp [dumpsVal]]
    rw [skipWs_ws_append pre _ hpre, skipWs_cons_of_not_ws _ (by decide)]
    dsimp only
    rw [if_neg (by decide : ¬(('[').isDigit = true)),
      if_neg (by decide : ¬('[' = '-')), if_neg (by decide : ¬('[' = 'n')),
      if_neg (by decide : ¬('[' = 't')), if_neg (by decide : ¬('[' = 'f')),
      if_neg (by decide : ¬('[' = '"')), if_pos (rfl : '[' = '[')]
    obtain ⟨c0, t0, hhd, hws0, hrb0, _, _⟩ := dumpsVal_head_shape x
    obtain ⟨u, hu⟩ := dumpsArr_cons_eq x xs
    have hshape : dumpsArr (x :: xs) ++ ']' :: rest = c0 :: (t0 ++ u ++ ']' :: rest) := by
      rw [hu, hhd]; simp
    rw [hshape, skipWs_cons_of_not_ws _ hws0]
    dsimp only
    rw [if_neg hrb0, ← hshape]
    have harr := parse_dumps_arr (x :: xs) [] f rest (by simp) (by simp)
      (by simp [fuelVal] at hfuel; omega)
    rw [List.nil_append] at harr
    rw [harr]
    rfl
  | .obj [], pre, fuel, rest => fun hpre hfuel hrest => by
    obtain ⟨f, rfl⟩ : ∃ f, fuel = f + 1 :=
      ⟨fuel - 1, by have := fuelVal_pos (.obj []); omega⟩
    rw [parseVal, List.append_assoc]
    rw [show dumpsVal (.obj []) ++ rest = '\x7b' :: ('\x7d' :: rest) from by
      simp [dumpsVal, dumpsObj]]
    rw [skipWs_ws_append pre _ hpre, skipWs_cons_of_not_ws _ (by decide)]
    rfl
  | .obj ((k, v) :: xs), pre, fuel, rest => fun hpre hfuel hrest => by
    obtain ⟨f, rfl⟩ : ∃ f, fuel = f + 1 :=
      ⟨fuel - 1, by have := fuelVal_pos (.obj ((k, v) :: xs)); omega⟩
    rw [parseVal, List.append_assoc]
    rw [show dumpsVal (.obj ((k, v) :: xs)) ++ rest =
      '\x7b' :: (dumpsObj ((k, v) :: xs) ++ '\x7d' :: rest) from by simp [dumpsVal]]
    rw [skipWs_ws_append pre _ hpre, skipWs_cons_of_not_ws _ (by decide)]
    dsimp only
    rw [if_neg (by decide : ¬(('\x7b').isDigit = true)),
      if_neg (by decide : ¬('\x7b' = '-')), if_neg (by decide : ¬('\x7b' = 'n')),
      if_neg (by decide : ¬('\x7b' = 't')), if_neg (by decide : ¬('\x7b' = 'f')),
      if_neg (by decide : ¬('\x7b' = '"')), if_neg (by decide : ¬('\x7b' = '[')),
      if_pos (rfl : '\x7b' = '\x7b')]
    have hshape : ∃ u, dumpsObj ((k, v) :: xs) ++ '\x7d' :: rest =
        '"' :: (k.flatMap escapeChar ++ '"' :: u) := by
      cases xs with
      | nil =>
        exact ⟨':' :: ' ' :: dumpsVal v ++ '\x7d' :: rest, by simp [dumpsObj, dumpsStr]⟩
      | cons y ys =>
        exact ⟨':' :: ' ' :: (dumpsVal v ++ ',' :: ' ' :: dumpsObj (y :: ys)) ++
          '\x7d' :: rest, by simp [dumpsObj, dumpsStr]⟩
    obtain ⟨u, hu⟩ := hshape
    rw [hu, skipWs_cons_of_not_ws _ (by decide)]
    dsimp only
    rw [if_neg (by decide : ¬('"' = '\x7d')), ← hu]
    have hobj := parse_dumps_obj ((k, v) :: xs) [] f rest (by simp) (by simp)
      (by simp [fuelVal] at hfuel; omega)
    rw [List.nil_append] at hobj
    rw [hobj]
    rfl

/-- A printed nonempty element list, preceded by whitespace and closed by
a bracket, parses back to itself. -/
theorem parse_dumps_arr : ∀ (l : List Json) (pre : List Char) (fuel : Nat) (rest : List Char),
    l ≠ [] → (∀ c ∈ pre, isJsonWs c = true) → fuelArr l ≤ fuel →
    parseElems fuel (pre ++ dumpsArr l ++ ']' :: rest) = some (l, rest)
  | [], _, _, _ => fun hne _ _ => absurd rfl hne
  | [x], pre, fuel, rest => fun _ hpre hfuel => by
    obtain ⟨f, rfl⟩ : ∃ f, fuel = f + 1 :=
      ⟨fuel - 1, by simp [fuelArr] at hfuel; omega⟩
    rw [parseElems]
    rw [show dumpsArr [x] = dumpsVal x from by simp [dumpsArr]]
    rw [parse_dumps_val x pre f (']' :: rest) hpre
      (by simp [fuelArr] at hfuel; omega) (headNotDigit_cons (by decide) _)]
    rfl
  | x :: y :: ys, pre, fuel, rest => fun _ hpre hfuel => by
    obtain ⟨f, rfl⟩ : ∃ f, fuel = f + 1 :=
      ⟨fuel - 1, by simp [fuelArr] at hfuel; omega⟩
    rw [parseElems]
    rw [show dumpsArr (x :: y :: ys) =
      dumpsVal x ++ ',' :: ' ' :: dumpsArr (y :: ys) from by simp [dumpsArr]]
    have hv := parse_dumps_val x pre f
      (',' :: ' ' :: (dumpsArr (y :: ys) ++ ']' :: rest)) hpre
      (by simp [fuelArr] at hfuel; omega) (headNotDigit_cons (by decide) _)
    simp only [List.append_assoc, List.cons_append] at hv ⊢
    rw [hv]
    dsimp only
    rw [skipWs_cons_of_not_ws _ (by decide)]
    dsimp only
    rw [if_neg (by decide : ¬(',' = ']')), if_pos (rfl : ',' = ',')]
    have harr := parse_dumps_arr (y :: ys) [' '] f rest (by simp) (by decide)
      (by simp [fuelArr] at hfuel ⊢; omega)
    simp only [List.append_assoc, List.cons_append, List.singleton_append, List.nil_append] at harr
    rw [harr]

/-- A printed nonempty member list, preceded by whitespace and closed by
a brace, parses back to itself. -/
theorem parse_dumps_obj :
    ∀ (l : List (List Char × Json)) (pre : List Char) (fuel : Nat) (rest : List Char),
    l ≠ [] → (∀ c ∈ pre, isJsonWs c = true) → fuelObj l ≤ fuel →
    parseMembers fuel (pre ++ dumpsObj l ++ '\x7d' :: rest) = some (l, rest)
  | [], _, _, _ => fun hne _ _ => absurd rfl hne
  | [(k, v)], pre, fuel, rest => fun _ hpre hfuel => by
    obtain ⟨f, rfl⟩ : ∃ f, fuel = f + 1 :=
      ⟨fuel - 1, by simp [fuelObj] at hfuel; omega⟩
    rw [parseMembers]
    rw [show dumpsObj [(k, v)] = dumpsStr k ++ ':' :: ' ' :: dumpsVal v from by
      simp [dumpsObj]]
    rw [show (pre ++ (dumpsStr k ++ ':' :: ' ' :: dumpsVal v)) ++ '\x7d' :: rest =
      pre ++ ('"' :: (k.flatMap escapeChar ++
        '"' :: (':' :: ' ' :: (dumpsVal v ++ '\x7d' :: rest)))) from by
      simp [dumpsStr]]
    rw [skipWs_ws_append pre _ hpre, skipWs_cons_of_not_ws _ (by decide)]
    dsimp only
    rw [if_pos (rfl : '"' = '"')]
    rw [parseStrChars_escape k _ _ (by simp [List.length_append]; omega)]
    dsimp only
    rw [skipWs_cons_of_not_ws _ (by decide)]
    dsimp only
    rw [if_pos (rfl : ':' = ':')]
    have hv := parse_dumps_val v [' '] f ('\x7d' :: rest) (by decide)
      (by simp [fuelObj] at hfuel; omega) (headNotDigit_cons (by decide) _)
    simp only [List.append_assoc, List.cons_append, List.singleton_append, List.nil_append] at hv ⊢
    rw [hv]
    rfl
  | (k, v) :: y :: ys, pre, fuel, rest => fun _ hpre hfuel => by
    obtain ⟨f, rfl⟩ : ∃ f, fuel = f + 1 :=
      ⟨fuel - 1, by simp [fuelObj] at hfuel; omega⟩
    rw [parseMembers]
    rw [show dumpsObj ((k, v) :: y :: ys) =
      dumpsStr k ++ ':' :: ' ' :: dumpsVal v ++ ',' :: ' ' :: dumpsObj (y :: ys) from by
      simp [dumpsObj]]
    rw [show (pre ++ (dumpsStr k ++ ':' :: ' ' :: dumpsVal v ++
        ',' :: ' ' :: dumpsObj (y :: ys))) ++ '\x7d' :: rest =
      pre ++ ('"' :: (k.flatMap escapeChar ++
        '"' :: (':' :: ' ' :: (dumpsVal v ++
          ',' :: ' ' :: (dumpsObj (y :: ys) ++ '\x7d' :: rest))))) from by
      simp [dumpsStr]]
    rw [skipWs_ws_append pre _ hpre, skipWs_cons_of_not_ws _ (by decide)]
    dsimp only
    rw [if_pos (rfl : '"' = '"')]
    rw [parseStrChars_escape k _ _ (by simp [List.length_append]; omega)]
    dsimp only
    rw [skipWs_cons_of_not_ws _ (by decide)]
    dsimp only
    rw [if_pos (rfl : ':' = ':')]
    have hv := parse_dumps_val v [' '] f
      (',' :: ' ' :: (dumpsObj (y :: ys) ++ '\x7d' :: rest)) (by decide)
      (by simp [fuelObj] at hfuel; omega) (headNotDigit_cons (by decide) _)
    simp only [List.append_assoc, List.cons_append, List.singleton_append, List.nil_append] at hv ⊢
    rw [hv]
    dsimp only
    rw [skipWs_cons_of_not_ws _ (by decide)]
    dsimp only
    rw [if_neg (by decide : ¬(',' = '\x7d')), if_pos (rfl : ',' = ',')]
    have hobj := parse_dumps_obj (y :: ys) [' '] f rest (by simp) (by decide)
      (by simp [fuelObj] at hfuel ⊢; omega)
    simp only [List.append_assoc, List.cons_append, List.singleton_append, List.nil_append] at hobj
    rw [hobj]

end

theorem dumpsVal_ne_nil (v : Json) : dumpsVal v ≠ [] := by
  obtain ⟨c, t, hct, _⟩ := dumpsVal_head_shape v
  rw [hct]
  simp

mutual

theorem fuelVal_le : ∀ v : Json, fuelVal v ≤ (dumpsVal v).length
  | .null => by decide
  | .bool true => by decide
  | .bool false => by decide
  | .num k => by
    have := dumpsVal_ne_nil (.num k)
    have hpos : 1 ≤ (dumpsVal (.num k)).length := by
      cases h : dumpsVal (.num k) with
      | nil => exact absurd h this
      | cons a b => simp
    simpa [fuelVal] using hpos
  | .str s => by
    simp [fuelVal, dumpsVal, dumpsStr]
  | .arr l => by
    have := fuelArr_le l
    simp only [fuelVal, dumpsVal, List.length_cons, List.length_append]
    simp at this ⊢
    omega
  | .obj l => by
    have := fuelObj_le l
    simp only [fuelVal, dumpsVal, List.length_cons, List.length_append]
    simp at this ⊢
    omega

theorem fuelArr_le : ∀ l : List Json, fuelArr l ≤ (dumpsArr l).length + 1
  | [] => by simp [fuelArr, dumpsArr]
  | [x] => by
    have h1 := fuelVal_le x
    have h2 : 1 ≤ (dumpsVal x).length := by
      cases h : dumpsVal x with
      | nil => exact absurd h (dumpsVal_ne_nil x)
      | cons a b => simp
    simp only [fuelArr, dumpsArr]
    simp [fuelArr]
    omega
  | x :: y :: ys => by
    have h1 := fuelVal_le x
    have h2 := fuelArr_le (y :: ys)
    simp only [fuelArr, dumpsArr, List.length_append, List.length_cons]
    simp only [fuelArr] at h2
    omega

theorem fuelObj_le : ∀ l : List (List Char × Json), fuelObj l ≤ (dumpsObj l).length + 1
  | [] => by simp [fuelObj, dumpsObj]
  | [(k, v)] => by
    have h1 := fuelVal_le v
    have h2 : 1 ≤ (dumpsVal v).length := by
      cases h : dumpsVal v with
      | nil => exact absurd h (dumpsVal_ne_nil v)
      | cons a b => simp
    simp only [fuelObj, dumpsObj, List.length_append, List.length_cons]
    simp [fuelObj]
    omega
  | (k, v) :: y :: ys => by
    have h1 := fuelVal_le v
    have h2 := fuelObj_le (y :: ys)
    simp only [fuelObj, dumpsObj, List.length_append, List.length_cons]
    simp only [fuelObj] at h2
    omega

end

/-- The central codec fact: what json.dumps writes, json.loads reads
back unchanged. -/
theorem loads_dumps (v : Json) : loads (dumps v) = some v := by
  unfold loads dumps
  rw [show (String.mk (dumpsVal v)).toList = dumpsVal v from rfl]
  have h := parse_dumps_val v [] ((dumpsVal v).length + 1) [] (by simp)
    (le_trans (fuelVal_le v) (by omega)) trivial
  rw [List.nil_append, List.append_nil] at h
  rw [h]
  rfl

/-! ## The JSON-map field accessors (src/models.py) -/

theorem dumps_obj_ne_empty (kvs : List (List Char × Json)) :
    dumps (Json.obj kvs) ≠ "" := by
  unfold dumps
  rw [show dumpsVal (.obj kvs) = '\x7b' :: (dumpsObj kvs ++ ['\x7d']) from by
    simp [dumpsVal]]
  intro h
  have hd := congrArg String.data h
  simp at hd

/-- Decode-or-default shared by every getter: the raw text decoded with
json.loads, the empty dict when the stored text is empty (falsy). -/
def decodeMapField (s : String) : Option Json :=
  if s = "" then some (.obj []) else loads s

theorem decodeMapField_dumps_obj (kvs : List (List Char × Json)) :
    decodeMapField (dumps (Json.obj kvs)) = some (.obj kvs) := by
  rw [decodeMapField, if_neg (dumps_obj_ne_empty kvs), loads_dumps]

/-- Model of `World.settings` getter (src/models.py lines 16-19). -/
def World.settings (w : World) : Option Json := decodeMapField w.settings_json

/-- Model of `World.settings` setter (src/models.py lines 21-24). -/
def World.setSettings (w : World) (value : Json) : World :=
  { w with settings_json := dumps value }

/-- Model of `Character.skills` getter/setter (src/models.py lines 69-75). -/
def Character.skills (c : Character) : Option Json := decodeMapField c.skills_json

def Character.setSkills (c : Character) (value : Json) : Character :=
  { c with skills_json := dumps value }

/-- Model of `Character.state` getter/setter (src/models.py lines 77-83). -/
def Character.state (c : Character) : Option Json := decodeMapField c.state_json

def Character.setState (c : Character) (value : Json) : Character :=
  { c with state_json := dumps value }

/-- Model of `Item.base_properties` getter/setter (src/models.py lines 134-140). -/
def Item.base_properties (i : Item) : Option Json :=
  decodeMapField i.base_properties_json

def Item.setBaseProperties (i : Item) (value : Json) : Item :=
  { i with base_properties_json := dumps value }

/-- Model of `ItemInstance.current_properties` getter/setter (src/models.py lines
152-158). -/
def ItemInstance.current_properties (x : ItemInstance) : Option Json :=
  decodeMapField x.current_properties_json

def ItemInstance.setCurrentProperties (x : ItemInstance) (value : Json) : ItemInstance :=
  { x with current_properties_json := dumps value }

/-- Model of `Inventory.custom_properties` getter/setter (src/models.py lines
170-176). -/
def Inventory.custom_properties (i : Inventory) : Option Json :=
  decodeMapField i.custom_properties_json

def Inventory.setCustomProperties (i : Inventory) (value : Json) : Inventory :=
  { i with custom_properties_json := dumps value }

/-- Model of `Vehicle.components` getter/setter (src/models.py lines 193-199). -/
def Vehicle.components (v : Vehicle) : Option Json := decodeMapField v.components_json

def Vehicle.setComponents (v : Vehicle) (value : Json) : Vehicle :=
  { v with components_json := dumps value }

/-! ## C9 -/

/-- C9: for each of the seven JSON-map fields, writing any map value
through the setter and reading it back through the getter yields a value
deeply equal to the original map (keys in insertion order; numeric
values modelled as integers). -/
theorem json_map_fields_roundtrip :
    (∀ (w : World) (kvs : List (List Char × Json)),
      (w.setSettings (.obj kvs)).settings = some (.obj kvs)) ∧
    (∀ (c : Character) (kvs : List (List Char × Json)),
      (c.setSkills (.obj kvs)).skills = some (.obj kvs)) ∧
    (∀ (c : Character) (kvs : List (List Char × Json)),
      (c.setState (.obj kvs)).state = some (.obj kvs)) ∧
    (∀ (i : Item) (kvs : List (List Char × Json)),
      (i.setBaseProperties (.obj kvs)).base_properties = some (.obj kvs)) ∧
    (∀ (x : ItemInstance) (kvs : List (List Char × Json)),
      (x.setCurrentProperties (.obj kvs)).current_properties = some (.obj kvs)) ∧
    (∀ (i : Inventory) (kvs : List (List Char × Json)),
      (i.setCustomProperties (.obj kvs)).custom_properties = some (.obj kvs)) ∧
    (∀ (v : Vehicle) (kvs : List (List Char × Json)),
      (v.setComponents (.obj kvs)).components = some (.obj kvs)) :=
  ⟨fun _ kvs => decodeMapField_dumps_obj kvs,
   fun _ kvs => decodeMapField_dumps_obj kvs,
   fun _ kvs => decodeMapField_dumps_obj kvs,
   fun _ kvs => decodeMapField_dumps_obj kvs,
   fun _ kvs => decodeMapField_dumps_obj kvs,
   fun _ kvs => decodeMapField_dumps_obj kvs,
   fun _ kvs => decodeMapField_dumps_obj kvs⟩

/-! ## C4: relationship history cap -/

theorem dumps_ne_empty (v : Json) : dumps v ≠ "" := by
  unfold dumps
  intro h
  have hd := congrArg String.data h
  exact dumpsVal_ne_nil v (by simpa using hd)

/-- The last `n` entries of a list — Python slice l[-n:]. -/
def takeLast {α : Type} (n : Nat) (l : List α) : List α := l.drop (l.length - n)

theorem takeLast_of_le {α : Type} (n : Nat) (l : List α) (h : l.length ≤ n) :
    takeLast n l = l := by
  unfold takeLast
  rw [Nat.sub_eq_zero_of_le h, List.drop_zero]

theorem length_takeLast {α : Type} (n : Nat) (l : List α) :
    (takeLast n l).length = min n l.length := by
  unfold takeLast
  rw [List.length_drop]
  omega

theorem takeLast_absorb {α : Type} (n : Nat) (a b : List α) :
    takeLast n (takeLast n a ++ b) = takeLast n (a ++ b) := by
  unfold takeLast
  rw [List.length_append, List.length_drop, List.length_append]
  rw [List.drop_append_eq_append_drop, List.drop_append_eq_append_drop, List.drop_drop]
  have hlen := List.length_drop (a.length - n) a
  congr 1
  · apply congrArg (fun i => List.drop i a)
    omega
  · apply congrArg (fun i => List.drop i b)
    rw [List.length_drop]
    omega

/-- Python dict assignment d[k] = v: replace in place when the key is
present, append otherwise. -/
def assocSet (l : List (List Char × Json)) (k : List Char) (v : Json) :
    List (List Char × Json) :=
  if l.any (fun p => p.1 == k) then l.map (fun p => if p.1 == k then (k, v) else p)
  else l ++ [(k, v)]

def timestampKey : List Char := ['t', 'i', 'm', 'e', 's', 't', 'a', 'm', 'p']

/-- The history entry `add_interaction` appends: the interaction dict
with its timestamp key set to the call-time ISO timestamp. -/
def stampEntry (interaction : List (List Char × Json)) (now : List Char) : Json :=
  .obj (assocSet interaction timestampKey (.str now))

/-- The pure history step of `Relationship.add_interaction`
(src/models.py lines 112-121): append the stamped interaction and keep
the last 50 entries. -/
def addInteraction (hist : List Json) (interaction : List (List Char × Json))
    (now : List Char) : List Json :=
  let h2 := hist ++ [stampEntry interaction now]
  if 50 < h2.length then h2.drop (h2.length - 50) else h2

theorem addInteraction_eq_takeLast (hist : List Json)
    (interaction : List (List Char × Json)) (now : List Char) :
    addInteraction hist interaction now =
      takeLast 50 (hist ++ [stampEntry interaction now]) := by
  unfold addInteraction takeLast
  dsimp only
  split
  · rfl
  · rename_i h
    rw [Nat.sub_eq_zero_of_le (by omega), List.drop_zero]

/-- Model of `Relationship.history` getter (src/models.py lines 104-106): decode
the stored text, the empty list for empty (falsy) text. -/
def Relationship.history (r : Relationship) : Option Json :=
  if r.history_json = "" then some (.arr []) else loads r.history_json

/-- Model of `Relationship.add_interaction` (src/models.py lines 112-121): decode
the history, stamp the interaction, append, cap at the most recent 50,
re-encode, refresh last_updated.  A history that fails to decode or is
no list raises in Python (modelled `none`). -/
def Relationship.addInteraction (r : Relationship)
    (interaction : List (List Char × Json)) (now : List Char) : Option Relationship :=
  match r.history with
  | some (.arr l) =>
      some { r with
              history_json := dumps (.arr (AiGame.addInteraction l interaction now)),
              last_updated := some (String.mk now) }
  | _ => none

/-- Model of `RelationshipRepository.add_interaction` (src/repositories.py lines
322-340): fetch the row; when absent do nothing; otherwise run the
entity-level `add_interaction` and UPDATE history_json and last_updated
(CURRENT_TIMESTAMP, the same call-time stamp). -/
def repoAddInteraction (db : GameDB) (relationship_id : Nat)
    (interaction : List (List Char × Json)) (now : List Char) : Option GameDB :=
  match db.relationships.find? (fun r => r.relationship_id == relationship_id) with
  | none => some db
  | some row =>
    match row.addInteraction interaction now with
    | none => none
    | some row2 =>
        some { db with relationships := db.relationships.map (fun r =>
            if r.relationship_id == relationship_id then
              { r with history_json := row2.history_json,
                       last_updated := row2.last_updated }
            else r) }

/-- The stamped entries of a call sequence (interaction, timestamp). -/
def stampedList (steps : List ((List (List Char × Json)) × List Char)) : List Json :=
  steps.map (fun s => stampEntry s.1 s.2)

theorem repoAddInteraction_step (db : GameDB) (rid : Nat) (row : Relationship)
    (l0 : List Json) (x : List (List Char × Json)) (now : List Char)
    (hmem : row ∈ db.relationships) (hid : row.relationship_id = rid)
    (hnd : (db.relationships.map (fun r => r.relationship_id)).Nodup)
    (hhist : row.history_json = dumps (.arr l0)) :
    repoAddInteraction db rid x now =
      some { db with relationships := db.relationships.map (fun r =>
          if r.relationship_id == rid then
            { r with history_json := dumps (.arr (addInteraction l0 x now)),
                     last_updated := some (String.mk now) }
          else r) } := by
  subst hid
  have hfind : db.relationships.find?
      (fun r => r.relationship_id == row.relationship_id) = some row :=
    find_key_eq (fun r : Relationship => r.relationship_id) db.relationships row hmem hnd
  unfold repoAddInteraction
  rw [hfind]
  dsimp only
  rw [show row.addInteraction x now = some { row with
      history_json := dumps (.arr (addInteraction l0 x now)),
      last_updated := some (String.mk now) } from by
    unfold Relationship.addInteraction Relationship.history
    rw [hhist, if_neg (dumps_ne_empty _), loads_dumps]]

/-- Elements with the unique key are equal. -/
theorem eq_of_key_nodup {α : Type} (key : α → Nat) :
    ∀ (l : List α) (x y : α), x ∈ l → y ∈ l → (l.map key).Nodup →
      key x = key y → x = y := by
  intro l
  induction l with
  | nil => intro x y hx; exact absurd hx (List.not_mem_nil x)
  | cons a tl ih =>
    intro x y hx hy hnd hk
    simp only [List.map_cons, List.nodup_cons] at hnd
    rcases List.mem_cons.mp hx with rfl | hx2
    · rcases List.mem_cons.mp hy with rfl | hy2
      · rfl
      · exact absurd (hk ▸ List.mem_map_of_mem key hy2) hnd.1
    · rcases List.mem_cons.mp hy with rfl | hy2
      · exact absurd (hk ▸ List.mem_map_of_mem key hx2) hnd.1
      · exact ih x y hx2 hy2 hnd.2 hk

theorem repoAddInteraction_fold
    (steps : List ((List (List Char × Json)) × List Char)) :
    ∀ (db : GameDB) (rid : Nat) (row : Relationship) (l0 : List Json),
    row ∈ db.relationships → row.relationship_id = rid →
    (db.relationships.map (fun r => r.relationship_id)).Nodup →
    row.history_json = dumps (.arr l0) → (steps ≠ [] ∨ l0.length ≤ 50) →
    ∃ db2, steps.foldl
        (fun acc s => acc.bind (fun d => repoAddInteraction d rid s.1 s.2))
        (some db) = some db2 ∧
      ∀ r2 ∈ db2.relationships, r2.relationship_id = rid →
        r2.history_json = dumps (.arr (takeLast 50 (l0 ++ stampedList steps))) := by
  induction steps with
  | nil =>
    intro db rid row l0 hmem hid hnd hhist hcond
    have hlen : l0.length ≤ 50 := by
      rcases hcond with h | h
      · exact absurd rfl h
      · exact h
    refine ⟨db, rfl, ?_⟩
    intro r2 hr2 hr2id
    have : r2 = row :=
      eq_of_key_nodup (fun r : Relationship => r.relationship_id) db.relationships
        r2 row hr2 hmem hnd (by show r2.relationship_id = row.relationship_id; rw [hr2id, hid])
    subst this
    rw [hhist]
    rw [show stampedList [] = [] from rfl, List.append_nil, takeLast_of_le _ _ hlen]
  | cons s ss ih =>
    intro db rid row l0 hmem hid hnd hhist _
    rw [List.foldl_cons, Option.some_bind]
    rw [repoAddInteraction_step db rid row l0 s.1 s.2 hmem hid hnd hhist]
    have hrow1 : (if (row.relationship_id == rid) = true then
        { row with history_json := dumps (.arr (addInteraction l0 s.1 s.2)),
                   last_updated := some (String.mk s.2) }
        else row) ∈ db.relationships.map (fun r =>
          if r.relationship_id == rid then
            { r with history_json := dumps (.arr (addInteraction l0 s.1 s.2)),
                     last_updated := some (String.mk s.2) }
          else r) :=
      List.mem_map_of_mem _ hmem
    rw [if_pos (by simp [hid])] at hrow1
    have hnd1 : ((db.relationships.map (fun r =>
        if r.relationship_id == rid then
          { r with history_json := dumps (.arr (addInteraction l0 s.1 s.2)),
                   last_updated := some (String.mk s.2) }
        else r)).map (fun r => r.relationship_id)).Nodup := by
      rw [List.map_map]
      have : db.relationships.map ((fun r : Relationship => r.relationship_id) ∘
          (fun r : Relationship =>
            if r.relationship_id == rid then
              { r with history_json := dumps (.arr (addInteraction l0 s.1 s.2)),
                       last_updated := some (String.mk s.2) }
            else r)) = db.relationships.map (fun r => r.relationship_id) := by
        apply List.map_congr_left
        intro a _
        by_cases h : (a.relationship_id == rid) = true
        · simp [Function.comp, h]
        · simp [Function.comp, h]
      rw [this]
      exact hnd
    have hlen1 : (addInteraction l0 s.1 s.2).length ≤ 50 := by
      rw [addInteraction_eq_takeLast, length_takeLast]
      omega
    obtain ⟨db2, hfold, hall⟩ := ih
      { db with relationships := db.relationships.map (fun r =>
          if r.relationship_id == rid then
            { r with history_json := dumps (.arr (addInteraction l0 s.1 s.2)),
                     last_updated := some (String.mk s.2) }
          else r) }
      rid _ (addInteraction l0 s.1 s.2) hrow1 (by simp [hid]) hnd1 rfl (Or.inr hlen1)
    refine ⟨db2, hfold, ?_⟩
    intro r2 hr2 hr2id
    have hthis := hall r2 hr2 hr2id
    have hlist : takeLast 50 (addInteraction l0 s.1 s.2 ++ stampedList ss) =
        takeLast 50 (l0 ++ stampedList (s :: ss)) := by
      rw [addInteraction_eq_takeLast, takeLast_absorb, List.append_assoc]
      rfl
    rw [hthis, hlist]

/-- C4: on an existing relationship, `n` `add_interaction` calls leave a
persisted history of exactly `min(n + k, 50)` entries (`k` the initial
decoded length), and the kept entries are exactly the most recently
appended ones — the last 50 of the initial history followed by the
stamped interactions, oldest evicted first.  (For `n = 0` the claim's
formula presupposes a history within the cap, hence the disjunctive
hypothesis.) -/
theorem addInteraction_caps_history (db : GameDB) (rid : Nat) (row : Relationship)
    (l0 : List Json) (steps : List ((List (List Char × Json)) × List Char))
    (hmem : row ∈ db.relationships) (hid : row.relationship_id = rid)
    (hnd : (db.relationships.map (fun r => r.relationship_id)).Nodup)
    (hhist : row.history_json = dumps (.arr l0))
    (hcond : steps ≠ [] ∨ l0.length ≤ 50) :
    ∃ db2, steps.foldl
        (fun acc s => acc.bind (fun d => repoAddInteraction d rid s.1 s.2))
        (some db) = some db2 ∧
      (∀ r2 ∈ db2.relationships, r2.relationship_id = rid →
        Relationship.history r2 =
          some (.arr (takeLast 50 (l0 ++ stampedList steps)))) ∧
      (takeLast 50 (l0 ++ stampedList steps)).length =
        min (l0.length + steps.length) 50 := by
  have hlength : (takeLast 50 (l0 ++ stampedList steps)).length =
      min (l0.length + steps.length) 50 := by
    rw [length_takeLast, List.length_append]
    have hs : (stampedList steps).length = steps.length := List.length_map _ _
    omega
  obtain ⟨db2, hf, hall⟩ :=
    repoAddInteraction_fold steps db rid row l0 hmem hid hnd hhist hcond
  refine ⟨db2, hf, ?_, hlength⟩
  intro r2 hr2 hr2id
  rw [Relationship.history, hall r2 hr2 hr2id, if_neg (dumps_ne_empty _), loads_dumps]

/-- Sixty identical interaction calls against the sample relationship. -/
def sampleSteps : List ((List (List Char × Json)) × List Char) :=
  List.replicate 60 ([(['t', 'y', 'p', 'e'], Json.str ['c', 'h', 'a', 't'])],
    ['t', '1'])

/-- Witness for C4: sixty calls on the sample store's relationship (its
stored history is the empty list) leave exactly the 50 most recent
entries. -/
theorem addInteraction_caps_history_witness :
    ∃ db2, sampleSteps.foldl
        (fun acc s => acc.bind (fun d => repoAddInteraction d 1 s.1 s.2))
        (some sampleDb2) = some db2 ∧
      (∀ r2 ∈ db2.relationships, r2.relationship_id = 1 →
        Relationship.history r2 =
          some (.arr (takeLast 50 (([] : List Json) ++ stampedList sampleSteps)))) ∧
      (takeLast 50 (([] : List Json) ++ stampedList sampleSteps)).length =
        min (([] : List Json).length + sampleSteps.length) 50 :=
  addInteraction_caps_history sampleDb2 1 sampleRel [] sampleSteps (by decide) rfl
    (by decide) rfl (Or.inl (by simp [sampleSteps]))

end AiGame
